import Mathlib

set_option maxRecDepth 100000

/-!
Verification of the quality-gated retry workflow of the financial-report
generator.  The Python sources under `src/agents` and `src/graph` are
shallowly embedded: every stage is a pure function from `ReportState` to a
partial update, external capabilities (LLM, web search, JSON decoding,
wall-clock date) are oracles passed in as functions, and Python operations
that can raise (`list[0]` on an empty list, `.get` on a non-dict) are
modelled with `Option`, `none` standing for an uncaught exception.
-/

namespace FinReport

/-! ## Python string primitives

Character-level models of the Python `str` operations the agents use:
`str.split()` (whitespace tokenisation), `x in s` (substring test),
`str.count` (non-overlapping occurrence count), `str.strip`, `str.lower`.
-/

/-- The ASCII whitespace characters recognised by Python `str.split()` /
`str.strip()`. -/
def pyIsSpace (c : Char) : Bool :=
  c = ' ' || c = '\t' || c = '\n' || c = '\r' || c = '\x0b' || c = '\x0c'

/-- Accumulator-based worker for `pyTokens`; `acc` holds the reversed
characters of the token currently being read. -/
def tokensAux : List Char → List Char → List String
  | [], acc => if acc.isEmpty then [] else [String.mk acc.reverse]
  | c :: cs, acc =>
    if pyIsSpace c then
      if acc.isEmpty then tokensAux cs [] else String.mk acc.reverse :: tokensAux cs []
    else
      tokensAux cs (c :: acc)

/-- Python `s.split()`: split on runs of whitespace, dropping empty pieces. -/
def pyTokens (s : String) : List String :=
  tokensAux s.data []

/-- Does the pattern occur at the very start of the text? -/
def matchHere : List Char → List Char → Bool
  | [], _ => true
  | _ :: _, [] => false
  | p :: ps, t :: ts => p = t && matchHere ps ts

/-- Does the pattern occur anywhere in the text? -/
def hasSubAux (pat : List Char) : List Char → Bool
  | [] => matchHere pat []
  | c :: ts => if matchHere pat (c :: ts) then true else hasSubAux pat ts

/-- Python `sub in hay` for strings. -/
def pyContains (hay sub : String) : Bool :=
  hasSubAux sub.data hay.data

/-- Count non-overlapping occurrences of `pat` left to right, as Python
`str.count` does for a non-empty pattern; `fuel` bounds the recursion and
is always supplied as `text.length + 1`. -/
def countOccurAux (pat : List Char) : Nat → List Char → Nat
  | 0, _ => 0
  | fuel + 1, text =>
    if matchHere pat text then 1 + countOccurAux pat fuel (text.drop pat.length)
    else
      match text with
      | [] => 0
      | _ :: ts => countOccurAux pat fuel ts

/-- Python `hay.count(sub)` (for the empty pattern Python returns
`len(hay) + 1`). -/
def pyCount (hay sub : String) : Nat :=
  if sub.data.isEmpty then hay.data.length + 1
  else countOccurAux sub.data (hay.data.length + 1) hay.data

/-- Python `s.strip()`. -/
def pyStrip (s : String) : String :=
  String.mk (((s.data.dropWhile pyIsSpace).reverse.dropWhile pyIsSpace).reverse)

/-- Python `s.lower()` (ASCII case folding; the workflow only compares
against ASCII keyword lists). -/
def pyLower (s : String) : String :=
  String.mk (s.data.map Char.toLower)

/-- Worker for `pySplitOn`: scan for non-overlapping leftmost occurrences
of the separator; `acc` holds the reversed characters of the current piece;
`fuel` is always supplied as `text.length + 1`. -/
def pySplitAux (sep : List Char) : Nat → List Char → List Char → List (List Char)
  | 0, _, acc => [acc.reverse]
  | fuel + 1, text, acc =>
    if matchHere sep text then acc.reverse :: pySplitAux sep fuel (text.drop sep.length) []
    else
      match text with
      | [] => [acc.reverse]
      | c :: ts => pySplitAux sep fuel ts (c :: acc)

/-- Python `s.split(sep)` for a non-empty separator. -/
def pySplitOn (s sep : String) : List String :=
  if sep.data.isEmpty then [s]
  else (pySplitAux sep.data (s.data.length + 1) s.data []).map String.mk

/-! ## The counting of quantitative tokens (`src/agents/quality_checker.py`,
check 5 of `check_report_quality`)

The source counts `re.findall(r'\$[\d,]+\.?\d*[BMK]?|\d+\.?\d*%', report)`.
Both alternatives are matched greedily; for this particular pattern greedy
matching without backtracking is equivalent to the regex semantics, because
every sub-pattern after the mandatory part is optional or forced.
-/

/-- ASCII digit test (the reports the gate scans use ASCII digits). -/
def isDig (c : Char) : Bool :=
  '0' ≤ c && c ≤ '9'

/-- Match `\$[\d,]+\.?\d*[BMK]?` at the head of the text, returning the rest. -/
def matchMoney : List Char → Option (List Char)
  | '$' :: rest =>
    let p1 := rest.span (fun c => isDig c || c = ',')
    if p1.1.isEmpty then none
    else
      let r2 := match p1.2 with
        | '.' :: r => r
        | other => other
      let r3 := (r2.span isDig).2
      let r4 := match r3 with
        | c :: r => if c = 'B' || c = 'M' || c = 'K' then r else c :: r
        | [] => []
      some r4
  | _ => none

/-- Match `\d+\.?\d*%` at the head of the text, returning the rest. -/
def matchPct (l : List Char) : Option (List Char) :=
  let p1 := l.span isDig
  if p1.1.isEmpty then none
  else
    let r2 := match p1.2 with
      | '.' :: r => r
      | other => other
    let r3 := (r2.span isDig).2
    match r3 with
    | '%' :: r => some r
    | _ => none

/-- Scan the text once, counting non-overlapping leftmost matches of the
pattern, the money alternative tried first, as `re.findall` does. -/
def countQuantAux : Nat → List Char → Nat
  | 0, _ => 0
  | _ + 1, [] => 0
  | fuel + 1, c :: ts =>
    match matchMoney (c :: ts) with
    | some rest => 1 + countQuantAux fuel rest
    | none =>
      match matchPct (c :: ts) with
      | some rest => 1 + countQuantAux fuel rest
      | none => countQuantAux fuel ts

/-- `len(re.findall(r'\$[\d,]+\.?\d*[BMK]?|\d+\.?\d*%', s))`. -/
def countQuant (s : String) : Nat :=
  countQuantAux (s.data.length + 1) s.data

/-! ## Data model (`src/graph/state.py`)

`ReportState` carries the twelve fields of the Python `TypedDict`.
The `Annotated[..., operator.add]` fields (`raw_data`, `data_sources`,
`insights`, `trends`, `messages`) are merged by appending; the remaining
fields are overwritten — see `applyUpdate` below.

The elements of `insights` and `trends` come from `json.loads` output and
need not be strings: the program only ever observes them through `len()` —
check 3 of `check_analysis_quality` computes `len(insight)` per insight —
and through `str`-formatting (which is total).  `PyStr` therefore keeps a
decoded element as either an actual string, a non-string value that
supports `len()` (a list or dict, recorded by its length), or a value
without `len()` (number, bool, null), on which `len(insight)` raises
`TypeError`. -/

inductive PyStr
  | str (s : String)
  | sized (n : Nat)
  | unsized
deriving DecidableEq

/-- Does Python `len()` succeed on this decoded value? -/
def pyHasLen : PyStr → Bool
  | .str _ => true
  | .sized _ => true
  | .unsized => false

/-- The value of Python `len()` on a decoded element; the `unsized` case is
only ever evaluated behind a `pyHasLen` guard (where Python has already
raised), so its value is immaterial. -/
def pyLenVal : PyStr → Nat
  | .str s => s.length
  | .sized n => n
  | .unsized => 0

structure ReportState where
  user_input : String
  analysis_focus : Option String := none
  raw_data : List String := []
  data_sources : List String := []
  key_metrics : Option (List (String × String)) := none
  insights : List PyStr := []
  trends : List PyStr := []
  report_sections : Option (List (String × String)) := none
  final_report : String := ""
  current_step : String := ""
  messages : List String := []
  data_collection_attempts : Nat := 0
  writing_attempts : Nat := 0
deriving DecidableEq

/-- A partial state update as returned by one agent.  `none` / `[]` mean
"field absent from the returned dict". -/
structure Update where
  user_input : Option String := none
  raw_data : List String := []
  data_sources : List String := []
  key_metrics : Option (List (String × String)) := none
  insights : List PyStr := []
  trends : List PyStr := []
  final_report : Option String := none
  current_step : Option String := none
  messages : List String := []
  data_collection_attempts : Option Nat := none
  writing_attempts : Option Nat := none
deriving DecidableEq

/-- LangGraph's merge of an agent's returned dict into the running state,
following the per-field reducer annotations of `src/graph/state.py`:
`operator.add` fields are appended to, all others overwritten when present. -/
def applyUpdate (s : ReportState) (u : Update) : ReportState :=
  { s with
    user_input := u.user_input.getD s.user_input,
    raw_data := s.raw_data ++ u.raw_data,
    data_sources := s.data_sources ++ u.data_sources,
    key_metrics := match u.key_metrics with
      | some m => some m
      | none => s.key_metrics,
    insights := s.insights ++ u.insights,
    trends := s.trends ++ u.trends,
    final_report := u.final_report.getD s.final_report,
    current_step := u.current_step.getD s.current_step,
    messages := s.messages ++ u.messages,
    data_collection_attempts := u.data_collection_attempts.getD s.data_collection_attempts,
    writing_attempts := u.writing_attempts.getD s.writing_attempts }

/-! ## The quality gates (`src/agents/quality_checker.py`) -/

inductive AnalysisDecision
  | proceed_to_writer
  | collect_more_data
  | insufficient_data
deriving DecidableEq

inductive ReportDecision
  | finalize
  | revise_report
deriving DecidableEq

/-- The vague-keyword set of `check_analysis_quality`, check 1. -/
def vague_keywords : List String :=
  ["unknown", "not available", "not disclosed", "estimated", "not found", "no data"]

/-- Number of metric values containing one of the vague keywords
(case-insensitively), as computed by check 1 of `check_analysis_quality`. -/
def vagueMetricCount (key_metrics : List (String × String)) : Nat :=
  (key_metrics.filter (fun kv => vague_keywords.any (fun k => pyContains (pyLower kv.2) k))).length

/-- The seven-check issues list of `check_analysis_quality`, given the
stored `key_metrics` dict and the first whitespace token of `user_input`.
Check 3 compares `generic > len/2` with Python float division; for integers
this is exactly `2 * generic > len`. -/
def analysisIssues (s : ReportState) (key_metrics : List (String × String))
    (company_name : String) : List String :=
  let vague_metrics := vagueMetricCount key_metrics
  let generic_insights := (s.insights.filter (fun i => pyLenVal i < 30)).length
  let total_chars := (s.raw_data.map String.length).sum
  let company_mentions :=
    (s.raw_data.filter (fun c => pyContains (pyLower c) (pyLower company_name))).length
  (if 2 ≤ vague_metrics then
      ["Too many vague/unknown metrics: " ++ toString vague_metrics ++ "/3"] else [])
  ++ (if s.insights.length < 3 then
      ["Insufficient insights: " ++ toString s.insights.length ++ " (need at least 3)"] else [])
  ++ (if s.insights.length < 2 * generic_insights then
      ["Insights too generic/short: " ++ toString generic_insights ++ "/" ++ toString s.insights.length] else [])
  ++ (if s.trends.length < 3 then
      ["Insufficient trends: " ++ toString s.trends.length ++ " (need at least 3)"] else [])
  ++ (if s.raw_data.length < 5 then
      ["Insufficient raw data: " ++ toString s.raw_data.length ++ " chunks (need at least 5)"] else [])
  ++ (if total_chars < 2000 then
      ["Raw data too short: " ++ toString total_chars ++ " chars (need at least 2000)"] else [])
  ++ (if company_mentions < 2 then
      ["Company barely mentioned in data: " ++ toString company_mentions ++ " times"] else [])

/-- `check_analysis_quality` (`src/agents/quality_checker.py`, lines 5-90).
Three of its operations can raise, each modelled by `none`:
`state.get('key_metrics', {})` returns the stored `None` (the entry points
initialise this `Optional[Dict]` field to `None`, so the key is present)
and `key_metrics.items()` (line 32) then raises `AttributeError`;
`len(insight)` in check 3 (line 45) raises `TypeError` on an insight
without `len()`; and `state.get('user_input', '').split()[0]` (line 63)
raises `IndexError` when `user_input` has no whitespace token. -/
def check_analysis_quality (s : ReportState) : Option AnalysisDecision :=
  match s.key_metrics with
  | none => none
  | some key_metrics =>
    if ¬ s.insights.all pyHasLen then none
    else
      match pyTokens s.user_input with
      | [] => none
      | company_name :: _ =>
        let issues := analysisIssues s key_metrics company_name
        let attempts := s.data_collection_attempts
        some (if issues ≠ [] ∧ attempts < 2 then .collect_more_data
              else if issues ≠ [] ∧ 2 ≤ attempts then .insufficient_data
              else .proceed_to_writer)

/-- The noise-word list shared by `editor_agent` and
`check_report_quality` (they contain the identical extraction loop). -/
def search_terms : List String :=
  ["financial", "report", "earnings", "revenue", "profit", "quarterly", "results"]

/-- The company-name extraction of `src/agents/editor.py` lines 21-32 (the
same code appears verbatim in `check_report_quality` lines 107-119): take
leading tokens until one, lowercased, is in `search_terms`; if that prefix
is empty, fall back to `words[0]`, whose `IndexError` on an empty token
list is modelled by `none`. -/
def clean_company_name (user_input : String) : Option String :=
  let words := pyTokens user_input
  let parts := words.takeWhile (fun w => !search_terms.contains (pyLower w))
  if parts.isEmpty then words.head?
  else some (String.intercalate " " parts)

/-- The six required section headers of `check_report_quality`, check 2. -/
def required_sections : List String :=
  ["Executive Summary", "Company Overview", "Financial Performance",
   "Market Position", "Key Insights", "Conclusion"]

/-- The vague-term set of `check_report_quality`, check 3. -/
def vague_terms : List String :=
  ["unknown", "not available", "not disclosed", "not found", "no data", "estimated"]

/-- The apostrophe character, used to build the `"{base}'s"` search pattern
of `check_report_quality` check 4. -/
def apos : String :=
  String.singleton (Char.ofNat 39)

/-- The six-check issues list of `check_report_quality`, given the lowered
base token of the cleaned company name. -/
def reportIssues (final_report company_base : String) : List String :=
  let missing_sections := required_sections.filter (fun sec => !pyContains final_report sec)
  let report_lower := pyLower final_report
  let vague_count := (vague_terms.map (fun t => pyCount report_lower t)).sum
  let company_mentions :=
    pyCount report_lower company_base
      + pyCount report_lower (company_base ++ apos ++ "s")
      + pyCount report_lower (company_base ++ " inc")
      - 2
  let numbers := countQuant final_report
  (if final_report.length < 3000 then
      ["Report too short: " ++ toString final_report.length ++ " chars (minimum 3000)"] else [])
  ++ (if missing_sections ≠ [] then
      ["Missing sections: " ++ String.intercalate ", " missing_sections] else [])
  ++ (if 5 < vague_count then
      ["Too many vague terms: " ++ toString vague_count ++ " instances"] else [])
  ++ (if company_mentions < 10 then
      ["Company barely discussed: mentioned only " ++ toString company_mentions
        ++ " times (found " ++ apos ++ company_base ++ apos ++ " and variations)"] else [])
  ++ (if numbers < 5 then
      ["Lacks specific data points: only " ++ toString numbers ++ " quantitative metrics"] else [])
  ++ (if (pyStrip final_report).length < 500 then
      ["Report is essentially empty"] else [])

/-- `check_report_quality` (`src/agents/quality_checker.py`, lines 93-198).
The `words[0]` fallback of the company-name extraction and the subsequent
`company_name.split()[0]` raise `IndexError` on token-free input; both are
modelled by `none`. -/
def check_report_quality (s : ReportState) : Option ReportDecision :=
  match clean_company_name s.user_input with
  | none => none
  | some company_name =>
    match pyTokens company_name with
    | [] => none
    | base :: _ =>
      let issues := reportIssues s.final_report (pyLower base)
      let attempts := s.writing_attempts
      some (if issues ≠ [] ∧ attempts < 2 then .revise_report
            else if issues ≠ [] ∧ 2 ≤ attempts then .finalize
            else .finalize)

/-! ## External capabilities

The spec treats the LLM (`invoke(prompt) -> text`), the search capability
(`search(query) -> list of {content, url}`) and `json.loads` as opaque
collaborators.  Each LLM call site builds its prompt from the current
state, so its response is modelled as a function of that state.  JSON
decoding is modelled by `parseJson`: `none` is a `JSONDecodeError`;
`PyJson.nonObj` is a successfully decoded value that is not a JSON object
(on which the analyst's `.get` calls raise `AttributeError`); `PyJson.obj`
carries the fixed-shape fields the analyst reads with `.get` defaults. -/

/-- A decoded `key_insights` / `trends` field of the analyst's JSON
object: absent from the object, a JSON list (its elements abstracted as
`PyStr`), or present but not a list.  With a non-list field the program
raises an uncaught `TypeError`: either at `len(insights)` / `len(trends)`
while building the status message (`analyst.py` line 92) when the value
has no `len()`, or in LangGraph's `operator.add` reducer (`list + str`,
`list + dict`, ...) when the returned dict is merged; both surface as an
exception of the analyst node. -/
inductive PyField
  | absent
  | list (l : List PyStr)
  | nonList
deriving DecidableEq

/-- The value the analyst's list handling sees: `.get`'s default `[]` for
an absent field, the list itself for a list, and `none` (the `TypeError`
described at `PyField`) for a non-list. -/
def fieldAsList : PyField → Option (List PyStr)
  | .absent => some []
  | .list l => some l
  | .nonList => none

/-- The fields the analyst reads off the decoded JSON object.  The three
metric fields are kept as their `str()` image — the program only observes
them through `str(value)` (the gate's vague check) and f-string
formatting, both of which are total for every JSON value. -/
structure AnalysisFields where
  revenue : Option String := none
  profit : Option String := none
  growth_rate : Option String := none
  key_insights : PyField := PyField.absent
  trends : PyField := PyField.absent
deriving DecidableEq

inductive PyJson
  | obj (fields : AnalysisFields)
  | nonObj
deriving DecidableEq

/-- The decoded analyst responses that raise no uncaught exception: a parse
failure is handled; a decoded object must have list (or absent)
`key_insights` and `trends` fields, and every insight must support `len()`
(check 3 of `check_analysis_quality` computes `len(insight)`; trend
elements are never measured individually, so they are unconstrained). -/
def wellTypedResp : Option PyJson → Bool
  | none => true
  | some PyJson.nonObj => false
  | some (PyJson.obj r) =>
    (match fieldAsList r.key_insights with
     | some l => l.all pyHasLen
     | none => false)
    && (fieldAsList r.trends).isSome

/-- One Tavily search result; `content` / `url` may be absent (`None`). -/
structure SearchResult where
  content : Option String := none
  url : Option String := none
deriving DecidableEq

/-- Python truthiness of `result.get(key)`: present and a non-empty string. -/
def pyTruthyStr : Option String → Bool
  | some v => v ≠ ""
  | none => false

structure Oracles where
  llm_queries : ReportState → String
  llm_analysis : ReportState → String
  llm_write : ReportState → String
  llm_edit : ReportState → String
  parseJson : String → Option PyJson
  search : String → List SearchResult
  today : String

/-! ## The agents (`src/agents/*.py`) -/

/-- `data_collector_agent` (`src/agents/data_collector.py`).  Queries are
the stripped non-empty lines of the LLM response; with no queries the agent
returns early (before the `query.split()[0]` that raises on token-free
input, modelled by `none`). -/
def data_collector_agent (o : Oracles) (s : ReportState) : Option Update :=
  let queries_text := o.llm_queries s
  let queries := ((pySplitOn queries_text "\n").map pyStrip).filter (fun q => q ≠ "")
  if queries.isEmpty then
    some { raw_data := [], data_sources := [], current_step := some "data_collection",
           messages := ["Error: Could not generate search queries."] }
  else
    let results := (queries.map (fun q => o.search q)).flatten
    let all_raw_data := results.filterMap (fun r => if pyTruthyStr r.content then r.content else none)
    let all_sources := results.filterMap (fun r => if pyTruthyStr r.url then r.url else none)
    match pyTokens s.user_input with
    | [] => none
    | company_name :: _ =>
      let relevant_chunks :=
        (all_raw_data.filter (fun c => pyContains (pyLower c) (pyLower company_name))).length
      let quality_note :=
        if all_raw_data.isEmpty ∨ relevant_chunks * 5 < all_raw_data.length then
          "⚠️ Low relevance: only " ++ toString relevant_chunks ++ "/"
            ++ toString all_raw_data.length ++ " chunks mention company"
        else
          "✅ Good relevance: " ++ toString relevant_chunks ++ "/"
            ++ toString all_raw_data.length ++ " chunks mention company"
      if all_raw_data.isEmpty then
        some { raw_data := [], data_sources := [], current_step := some "data_collection",
               messages := ["Warning: No data found for the given query."] }
      else
        some { raw_data := all_raw_data, data_sources := all_sources,
               current_step := some "data_collection",
               messages := ["Generated " ++ toString queries.length ++ " search queries",
                            quality_note,
                            "Collected " ++ toString all_raw_data.length
                              ++ " data chunks from " ++ toString all_sources.length ++ " sources"] }

/-- The markdown-fence stripping of `src/agents/analyst.py` lines 60-66,
followed by `.strip()`. -/
def stripFences (response_text : String) : String :=
  let t :=
    if pyContains response_text ("```" ++ "json") then
      (pySplitOn ((pySplitOn response_text ("```" ++ "json")).getD 1 "") "```").getD 0 ""
    else if pyContains response_text "```" then
      (pySplitOn ((pySplitOn response_text "```").getD 1 "") "```").getD 0 ""
    else response_text
  pyStrip t

/-- `analyst_agent` (`src/agents/analyst.py`).  Empty `raw_data`
short-circuits before the LLM; a `JSONDecodeError` is caught and downgraded
to an error result; a decoded non-object makes the subsequent `.get` raise
`AttributeError`, and a non-list `key_insights` / `trends` field raises the
`TypeError` described at `PyField` — both modelled by `none`. -/
def analyst_agent (o : Oracles) (s : ReportState) : Option Update :=
  if s.raw_data.isEmpty then
    some { key_metrics := some [], insights := [PyStr.str "No data available for analysis"],
           trends := [], current_step := some "analysis",
           messages := ["Warning: No raw data to analyze"] }
  else
    let response_text := stripFences (o.llm_analysis s)
    match o.parseJson response_text with
    | none =>
      some { key_metrics := some [],
             insights := [PyStr.str "Error: Could not parse analysis results"],
             trends := [], current_step := some "analysis",
             messages := ["Error: Failed to analyze data properly"] }
    | some PyJson.nonObj => none
    | some (PyJson.obj r) =>
      match fieldAsList r.key_insights with
      | none => none
      | some insights =>
        match fieldAsList r.trends with
        | none => none
        | some trends =>
          let key_metrics := [("revenue", r.revenue.getD "unknown"),
                              ("profit", r.profit.getD "unknown"),
                              ("growth_rate", r.growth_rate.getD "unknown")]
          let vague_metrics := (key_metrics.filter (fun kv =>
            pyContains (pyLower kv.2) "unknown" || pyContains (pyLower kv.2) "not available")).length
          let quality_status :=
            if 2 ≤ vague_metrics then "⚠️ WARNING: Limited data quality" else "✅ Good data quality"
          some { key_metrics := some key_metrics, insights := insights, trends := trends,
                 current_step := some "analysis",
                 messages := ["Analysis completed. Extracted " ++ toString insights.length
                                ++ " insights and " ++ toString trends.length ++ " trends",
                              quality_status ++ " - " ++ toString (3 - vague_metrics)
                                ++ "/3 metrics found, " ++ toString vague_metrics ++ " unknown"] }

/-- `writer_agent` (`src/agents/writer.py`): with falsy `key_metrics` or
`insights` it short-circuits with an empty report; otherwise the LLM
response becomes `final_report` verbatim.  The function is total. -/
def writer_agent (o : Oracles) (s : ReportState) : Update :=
  if s.key_metrics.getD [] = [] ∨ s.insights.isEmpty then
    { final_report := some "", current_step := some "writing",
      messages := ["Error: Missing analysis data for report generation"] }
  else
    { final_report := some (o.llm_write s), current_step := some "writing",
      messages := ["Report written successfully"] }

/-- The metadata banner prepended by `editor_agent`. -/
def metadataBanner (company_name today : String) : String :=
  "\n\n---\n**Financial Analysis Report**\n\n**Company:** " ++ company_name
    ++ "\n\n**Generated:** " ++ today ++ "\n\n**Analysis Period:** 2024\n\n---\n\n"

/-- `editor_agent` (`src/agents/editor.py`): extracts the clean company
name (raising, i.e. `none`, on token-free input), strips the LLM response
and prepends the metadata banner.  It does not set `current_step`. -/
def editor_agent (o : Oracles) (s : ReportState) : Option Update :=
  match clean_company_name s.user_input with
  | none => none
  | some company_name =>
    let edited_report := pyStrip (o.llm_edit s)
    some { final_report := some (metadataBanner company_name o.today ++ edited_report),
           messages := ["Edited report is ready!"] }

/-! ## Retry handlers and the early-exit handler
(`src/agents/quality_checker.py`, lines 201-284) -/

/-- The fixed suffix `retry_data_collection` appends to `user_input`. -/
def retrySuffix : String :=
  " financial report earnings revenue profit quarterly results 2024 2023"

/-- `retry_data_collection`: bump the counter, enrich the query. -/
def retry_data_collection (s : ReportState) : Update :=
  let attempts := s.data_collection_attempts + 1
  { user_input := some (s.user_input ++ retrySuffix),
    data_collection_attempts := some attempts,
    messages := ["Retrying data collection (attempt " ++ toString attempts
                   ++ ") with enhanced search terms"] }

/-- `retry_writing`: bump the counter only. -/
def retry_writing (s : ReportState) : Update :=
  let attempts := s.writing_attempts + 1
  { writing_attempts := some attempts,
    messages := ["Retrying report generation (attempt " ++ toString attempts
                   ++ ") with focus on more detail and specifics"] }

/-- The fixed disclaimer template of `handle_insufficient_data`, with the
three interpolated values (`company.split()[0]`, the attempt count, and
today's date). -/
def disclaimerReport (first attemptsStr today : String) : String :=
  ("---\n    **Financial Analysis Report**\n    **Company:** " ++ first
  ++ "\n    **Generated:** " ++ today
  ++ "\n    **Status:** ")
  ++ ("Insufficient Data Available"
  ++ ("\n    ---\n\n    ## Data Collection Notice\n\n    After " ++ attemptsStr
  ++ " attempts to gather financial information about **" ++ first
  ++ "**, we were unable to find sufficient publicly available data to generate a comprehensive financial analysis report.\n\n    ### Possible Reasons:\n    - The company may be privately held with limited public disclosures\n    - The company name may be misspelled or not widely recognized\n    - The company may be very small or newly established\n    - The company may not exist or may have recently ceased operations\n\n    ### Recommendation:\n    Please verify:\n    1. The correct company name and spelling\n    2. Whether the company is publicly traded or has public financial disclosures\n    3. Alternative names or variations the company might use\n    4. Whether you meant to search for a different, similarly-named company\n\n    If you believe this is an error, please try again with more specific details such as:\n    - Full legal company name\n    - Stock ticker symbol (if publicly traded)\n    - Industry or business type\n    - Geographic location\n\n    ---\n    *This report was generated automatically after failing to collect sufficient data for analysis.*\n"))

/-- `handle_insufficient_data`: a fixed-template disclaimer report built
without any LLM call (the only external input is today's date);
`company.split()[0]` raises, i.e. `none`, on token-free input. -/
def handle_insufficient_data (today : String) (s : ReportState) : Option Update :=
  match pyTokens s.user_input with
  | [] => none
  | first :: _ =>
    some { final_report := some (disclaimerReport first (toString s.data_collection_attempts) today),
           current_step := some "early_exit",
           messages := ["Insufficient data found after " ++ toString s.data_collection_attempts
                          ++ " attempts. Created disclaimer report."] }

/-! ## The workflow driver (`src/graph/workflow.py`)

`create_report_workflow` wires `START → data_collector → analyst →
[check_analysis_quality] → {writer | retry_data_collection → data_collector
| insufficient_data_handler → END}` and `writer → editor →
[check_report_quality] → {END | retry_writing → writer}`.  The two loops
are modelled by two fuel-indexed phases; retries are capped by the gates
themselves, and fuel 3 is shown sufficient below.  The trace records each
executed node with the merged state after it. -/

inductive Node
  | collector
  | analyst
  | writer
  | editor
  | retryCollect
  | retryWrite
  | insufficientHandler
deriving DecidableEq

inductive RunStatus
  | ok (s : ReportState)
  | toWriter (s : ReportState)
  | exn
  | fuelOut
deriving DecidableEq

/-- The writer → editor → gate → (retry_writing) loop. -/
def writePhase (o : Oracles) : Nat → ReportState → List (Node × ReportState) × RunStatus
  | 0, _ => ([], .fuelOut)
  | fuel + 1, s =>
    let s1 := applyUpdate s (writer_agent o s)
    match editor_agent o s1 with
    | none => ([(.writer, s1)], .exn)
    | some ue =>
      let s2 := applyUpdate s1 ue
      match check_report_quality s2 with
      | none => ([(.writer, s1), (.editor, s2)], .exn)
      | some .finalize => ([(.writer, s1), (.editor, s2)], .ok s2)
      | some .revise_report =>
        let s3 := applyUpdate s2 (retry_writing s2)
        let rest := writePhase o fuel s3
        ((.writer, s1) :: (.editor, s2) :: (.retryWrite, s3) :: rest.1, rest.2)

/-- The data_collector → analyst → gate → (retry / early exit) loop. -/
def collectPhase (o : Oracles) : Nat → ReportState → List (Node × ReportState) × RunStatus
  | 0, _ => ([], .fuelOut)
  | fuel + 1, s =>
    match data_collector_agent o s with
    | none => ([], .exn)
    | some uc =>
      let s1 := applyUpdate s uc
      match analyst_agent o s1 with
      | none => ([(.collector, s1)], .exn)
      | some ua =>
        let s2 := applyUpdate s1 ua
        match check_analysis_quality s2 with
        | none => ([(.collector, s1), (.analyst, s2)], .exn)
        | some .proceed_to_writer => ([(.collector, s1), (.analyst, s2)], .toWriter s2)
        | some .insufficient_data =>
          match handle_insufficient_data o.today s2 with
          | none => ([(.collector, s1), (.analyst, s2)], .exn)
          | some uh =>
            let s3 := applyUpdate s2 uh
            ([(.collector, s1), (.analyst, s2), (.insufficientHandler, s3)], .ok s3)
        | some .collect_more_data =>
          let s3 := applyUpdate s2 (retry_data_collection s2)
          let rest := collectPhase o fuel s3
          ((.collector, s1) :: (.analyst, s2) :: (.retryCollect, s3) :: rest.1, rest.2)

/-- One full workflow execution from the initial state: the collection
phase, then (on `proceed_to_writer`) the writing phase. -/
def run (o : Oracles) (s0 : ReportState) : List (Node × ReportState) × RunStatus :=
  let c := collectPhase o 3 s0
  match c.2 with
  | .toWriter s =>
    let w := writePhase o 3 s
    (c.1 ++ w.1, w.2)
  | st => (c.1, st)

/-! ## Claim-side reformulations and auxiliary definitions

For each gate the claim describes the routing decision in terms of a
disjunction of threshold checks; these predicates restate that description
so the theorems below can relate the issue-list computed by the source to
the claimed decision table. -/

/-- A fixed set of degenerate oracle responses used by the concrete
executions below: the LLM always answers with the empty string, search
returns nothing, JSON decoding always fails. -/
def oraclesEmpty : Oracles where
  llm_queries := fun _ => ""
  llm_analysis := fun _ => ""
  llm_write := fun _ => ""
  llm_edit := fun _ => ""
  parseJson := fun _ => none
  search := fun _ => []
  today := "2026-10-12"

/-- Oracles whose analyst response decodes to a JSON value that is not an
object (e.g. the literal text `[]`), on which the analyst's `.get` calls
raise `AttributeError`. -/
def oraclesNonObj : Oracles where
  llm_queries := fun _ => "Tesla revenue"
  llm_analysis := fun _ => "[]"
  llm_write := fun _ => ""
  llm_edit := fun _ => ""
  parseJson := fun _ => some PyJson.nonObj
  search := fun _ => [{ content := some "Tesla quarterly revenue data and results", url := some "u" }]
  today := "2026-10-12"

/-- Oracles whose analyst response decodes to a JSON object whose
`key_insights` value is not a list (e.g. the text
`{"key_insights": "abc"}`): the analyst completes but LangGraph's
`operator.add` reducer raises `TypeError` merging `list + str`. -/
def oraclesNonList : Oracles where
  llm_queries := fun _ => "Tesla revenue"
  llm_analysis := fun _ => ""
  llm_write := fun _ => ""
  llm_edit := fun _ => ""
  parseJson := fun _ => some (PyJson.obj { key_insights := PyField.nonList })
  search := fun _ => [{ content := some "Tesla quarterly revenue data and results", url := some "u" }]
  today := "2026-10-12"

/-- Oracles whose analyst response decodes to an object whose
`key_insights` is a list containing a number (e.g. `{"key_insights": [1]}`):
the merge succeeds and `len(insight)` in check 3 of
`check_analysis_quality` then raises `TypeError`. -/
def oraclesIllTyped : Oracles where
  llm_queries := fun _ => "Tesla revenue"
  llm_analysis := fun _ => ""
  llm_write := fun _ => ""
  llm_edit := fun _ => ""
  parseJson := fun _ => some (PyJson.obj { key_insights := PyField.list [PyStr.unsized] })
  search := fun _ => [{ content := some "Tesla quarterly revenue data and results", url := some "u" }]
  today := "2026-10-12"

/-- The state after the last traced node, or the initial state for an empty
trace. -/
def lastState : ReportState → List (Node × ReportState) → ReportState
  | s0, [] => s0
  | _, (_, s) :: rest => lastState s rest

/-- `user_input` after `n` traversals of the collection-retry edge, each of
which appends `retrySuffix`. -/
def appendSuffixIter : Nat → String → String
  | 0, u => u
  | n + 1, u => appendSuffixIter n u ++ retrySuffix

/-- The per-step behaviour of the retry counters along a trace: starting
from `prev`, each traced node leaves both counters unchanged except that
`retry_data_collection` increments `data_collection_attempts` by exactly 1
and `retry_writing` increments `writing_attempts` by exactly 1. -/
def CounterSteps : ReportState → List (Node × ReportState) → Prop
  | _, [] => True
  | prev, (n, s) :: rest =>
      (s.data_collection_attempts =
        if n = Node.retryCollect then prev.data_collection_attempts + 1
        else prev.data_collection_attempts)
      ∧ (s.writing_attempts =
        if n = Node.retryWrite then prev.writing_attempts + 1 else prev.writing_attempts)
      ∧ CounterSteps s rest

/-- The claimed condition "the analysis issues list is non-empty", spelled
out as the disjunction of the 7 threshold checks over the stored
`key_metrics` dict. -/
def specAnalysisIssue (s : ReportState) (key_metrics : List (String × String))
    (company : String) : Prop :=
  2 ≤ vagueMetricCount key_metrics
  ∨ s.insights.length < 3
  ∨ s.insights.length < 2 * (s.insights.filter (fun i => pyLenVal i < 30)).length
  ∨ s.trends.length < 3
  ∨ s.raw_data.length < 5
  ∨ (s.raw_data.map String.length).sum < 2000
  ∨ (s.raw_data.filter (fun c => pyContains (pyLower c) (pyLower company))).length < 2

lemma analysisIssues_eq_nil_iff (s : ReportState) (km : List (String × String)) (w : String) :
    analysisIssues s km w = [] ↔ ¬ specAnalysisIssue s km w := by
  simp only [analysisIssues, specAnalysisIssue, List.append_eq_nil, ite_eq_right_iff,
    List.cons_ne_nil, imp_false]
  tauto

lemma analysisIssues_ne_nil_iff (s : ReportState) (km : List (String × String)) (w : String) :
    analysisIssues s km w ≠ [] ↔ specAnalysisIssue s km w := by
  rw [Ne, analysisIssues_eq_nil_iff, not_not]

/-- C1: for every state whose `key_metrics` field holds a dict (the stored
`None` of the entry points' initial state makes `key_metrics.items()`
raise), whose insights all support `len()` (check 3's `len(insight)`
raises otherwise), and whose `user_input` has at least one whitespace
token (`split()[0]` raises otherwise), `check_analysis_quality` returns
`collect_more_data` iff the 7-check issues list is non-empty and
`data_collection_attempts < 2`, `insufficient_data` iff it is non-empty
and the attempts are at least 2, and `proceed_to_writer` iff it is empty,
where non-emptiness of the issues list is exactly the disjunction of the 7
fixed threshold checks (`specAnalysisIssue`). -/
theorem c1_analysis_gate_decision (s : ReportState) (km : List (String × String))
    (hkm : s.key_metrics = some km) (hlen : s.insights.all pyHasLen = true)
    (w : String) (ws : List String) (h : pyTokens s.user_input = w :: ws) :
    ∃ d, check_analysis_quality s = some d
      ∧ (d = AnalysisDecision.collect_more_data ↔
          specAnalysisIssue s km w ∧ s.data_collection_attempts < 2)
      ∧ (d = AnalysisDecision.insufficient_data ↔
          specAnalysisIssue s km w ∧ 2 ≤ s.data_collection_attempts)
      ∧ (d = AnalysisDecision.proceed_to_writer ↔ ¬ specAnalysisIssue s km w) := by
  refine ⟨if analysisIssues s km w ≠ [] ∧ s.data_collection_attempts < 2 then
            AnalysisDecision.collect_more_data
          else if analysisIssues s km w ≠ [] ∧ 2 ≤ s.data_collection_attempts then
            AnalysisDecision.insufficient_data
          else AnalysisDecision.proceed_to_writer,
         by simp only [check_analysis_quality, hkm, h]; rw [if_neg (by simp [hlen])],
         ?_, ?_, ?_⟩ <;>
    by_cases hI : specAnalysisIssue s km w <;>
    by_cases hA : s.data_collection_attempts < 2 <;>
    simp [analysisIssues_ne_nil_iff, hI, hA, Nat.le_of_not_lt, Nat.not_le_of_lt, Nat.not_lt_of_le]

/-- C1 counterexample: the claim quantifies over every state, but the gate
raises instead of returning any of the three outcomes on three families of
states — `key_metrics` holding the entry points' initial `None`
(`AttributeError` at `key_metrics.items()`), an insight without `len()`
(`TypeError` in check 3), and a token-free `user_input` (`IndexError` at
`split()[0]`). -/
theorem c1_counterexample :
    check_analysis_quality { user_input := "Tesla" } = none
    ∧ check_analysis_quality { user_input := "", key_metrics := some [] } = none
    ∧ check_analysis_quality
        { user_input := "Tesla", key_metrics := some [], insights := [PyStr.unsized] } = none := by
  refine ⟨?_, ?_, ?_⟩ <;> decide

/-- C1 witness: a concrete state satisfying the amended hypotheses. -/
theorem c1_witness :
    ∃ d, check_analysis_quality { user_input := "Tesla", key_metrics := some [] } = some d
      ∧ (d = AnalysisDecision.collect_more_data ↔
          specAnalysisIssue { user_input := "Tesla", key_metrics := some [] } [] "Tesla"
            ∧ ({ user_input := "Tesla", key_metrics := some [] } : ReportState).data_collection_attempts < 2)
      ∧ (d = AnalysisDecision.insufficient_data ↔
          specAnalysisIssue { user_input := "Tesla", key_metrics := some [] } [] "Tesla"
            ∧ 2 ≤ ({ user_input := "Tesla", key_metrics := some [] } : ReportState).data_collection_attempts)
      ∧ (d = AnalysisDecision.proceed_to_writer ↔
          ¬ specAnalysisIssue { user_input := "Tesla", key_metrics := some [] } [] "Tesla") :=
  c1_analysis_gate_decision { user_input := "Tesla", key_metrics := some [] } []
    rfl (by decide) "Tesla" [] (by decide)

/-- C2: for every state whose `user_input` has at least one whitespace
token, `check_report_quality` returns `revise_report` iff the issues list
is non-empty and `writing_attempts < 2`, and `finalize` otherwise (both
when the issues list is empty and when it is non-empty at the retry
ceiling); and the decision depends only on `final_report`, `user_input`
and `writing_attempts`. -/
theorem c2_report_gate_decision (s : ReportState) (c : String)
    (hc : clean_company_name s.user_input = some c)
    (b : String) (bs : List String) (hb : pyTokens c = b :: bs) :
    ∃ d, check_report_quality s = some d
      ∧ (d = ReportDecision.revise_report ↔
          reportIssues s.final_report (pyLower b) ≠ [] ∧ s.writing_attempts < 2)
      ∧ (d = ReportDecision.finalize ↔
          ¬ (reportIssues s.final_report (pyLower b) ≠ [] ∧ s.writing_attempts < 2))
      ∧ (∀ s' : ReportState, s'.final_report = s.final_report →
          s'.user_input = s.user_input → s'.writing_attempts = s.writing_attempts →
          check_report_quality s' = check_report_quality s) := by
  refine ⟨if reportIssues s.final_report (pyLower b) ≠ [] ∧ s.writing_attempts < 2 then
            ReportDecision.revise_report
          else if reportIssues s.final_report (pyLower b) ≠ [] ∧ 2 ≤ s.writing_attempts then
            ReportDecision.finalize
          else ReportDecision.finalize,
         by simp only [check_report_quality, hc, hb], ?_, ?_, ?_⟩
  · by_cases hI : reportIssues s.final_report (pyLower b) ≠ [] <;>
      by_cases hA : s.writing_attempts < 2 <;>
      simp [hI, hA, Nat.le_of_not_lt, Nat.not_le_of_lt, Nat.not_lt_of_le]
  · by_cases hI : reportIssues s.final_report (pyLower b) ≠ [] <;>
      by_cases hA : s.writing_attempts < 2 <;>
      simp [hI, hA, Nat.le_of_not_lt, Nat.not_le_of_lt, Nat.not_lt_of_le]
  · intro s' h1 h2 h3
    rw [check_report_quality, check_report_quality, h1, h2, h3]

/-- C2 counterexample: the claim quantifies over every state, but on a
state whose `user_input` is empty the gate raises `IndexError` at the
`words[0]` fallback of the company-name extraction instead of returning
either outcome. -/
theorem c2_counterexample :
    check_report_quality { user_input := "  " } = none := by decide

/-- C2 witness: the amended theorem applied at a concrete state. -/
theorem c2_witness :
    ∃ d, check_report_quality { user_input := "Tesla", writing_attempts := 2 } = some d
      ∧ (d = ReportDecision.revise_report ↔
          reportIssues "" (pyLower "Tesla") ≠ []
            ∧ ({ user_input := "Tesla", writing_attempts := 2 } : ReportState).writing_attempts < 2)
      ∧ (d = ReportDecision.finalize ↔
          ¬ (reportIssues "" (pyLower "Tesla") ≠ []
            ∧ ({ user_input := "Tesla", writing_attempts := 2 } : ReportState).writing_attempts < 2))
      ∧ (∀ s' : ReportState, s'.final_report = "" → s'.user_input = "Tesla" →
          s'.writing_attempts = 2 →
          check_report_quality s' = check_report_quality { user_input := "Tesla", writing_attempts := 2 }) :=
  c2_report_gate_decision { user_input := "Tesla", writing_attempts := 2 } "Tesla"
    (by decide) "Tesla" [] (by decide)

/-! ## Tokenisation lemmas -/

lemma tokensAux_append_space {sp : Char} (hsp : pyIsSpace sp = true) (b : List Char) :
    ∀ (a acc : List Char), tokensAux (a ++ sp :: b) acc = tokensAux a acc ++ tokensAux b [] := by
  intro a
  induction a with
  | nil =>
    intro acc
    by_cases hacc : acc.isEmpty <;> simp [tokensAux, hsp, hacc]
  | cons c a ih =>
    intro acc
    by_cases hc : pyIsSpace c <;> by_cases hacc : acc.isEmpty <;>
      simp [tokensAux, hc, hacc, ih]

lemma pyTokens_append_retrySuffix (u : String) :
    pyTokens (u ++ retrySuffix) = pyTokens u ++ pyTokens retrySuffix := by
  have hdec : retrySuffix.data
      = ' ' :: ("financial report earnings revenue profit quarterly results 2024 2023" : String).data := by
    decide
  have hsp : pyIsSpace ' ' = true := by decide
  rw [pyTokens, pyTokens, pyTokens, String.data_append, hdec,
    tokensAux_append_space hsp _ _ _]
  simp [tokensAux, hsp]

lemma tokensAux_mem : ∀ (l acc : List Char), (∀ c ∈ acc, pyIsSpace c = false) →
    ∀ w ∈ tokensAux l acc, w.data ≠ [] ∧ ∀ c ∈ w.data, pyIsSpace c = false := by
  intro l
  induction l with
  | nil =>
    intro acc hacc w hw
    by_cases he : acc.isEmpty
    · simp [tokensAux, he] at hw
    · simp only [tokensAux, if_neg he, List.mem_singleton] at hw
      subst hw
      refine ⟨?_, ?_⟩
      · have : acc ≠ [] := by simpa [List.isEmpty_iff] using he
        simpa using this
      · intro c hc
        exact hacc c (by simpa using hc)
  | cons c cs ih =>
    intro acc hacc w hw
    by_cases hc : pyIsSpace c = true
    · by_cases he : acc.isEmpty
      · simp only [tokensAux, if_pos hc, if_pos he] at hw
        exact ih [] (by simp) w hw
      · simp only [tokensAux, if_pos hc, if_neg he, List.mem_cons] at hw
        rcases hw with hw | hw
        · subst hw
          refine ⟨?_, ?_⟩
          · have : acc ≠ [] := by simpa [List.isEmpty_iff] using he
            simpa using this
          · intro x hx
            exact hacc x (by simpa using hx)
        · exact ih [] (by simp) w hw
    · simp only [tokensAux, if_neg hc] at hw
      rw [Bool.not_eq_true] at hc
      refine ih (c :: acc) ?_ w hw
      intro x hx
      rcases List.mem_cons.mp hx with rfl | hx'
      · exact hc
      · exact hacc x hx'

lemma pyTokens_mem (u w : String) (hw : w ∈ pyTokens u) :
    w.data ≠ [] ∧ ∀ c ∈ w.data, pyIsSpace c = false :=
  tokensAux_mem u.data [] (by simp) w hw

lemma tokensAux_ne_nil : ∀ (l acc : List Char),
    (acc ≠ [] ∨ ∃ c ∈ l, pyIsSpace c = false) → tokensAux l acc ≠ [] := by
  intro l
  induction l with
  | nil =>
    intro acc h
    rcases h with h | ⟨c, hc, _⟩
    · simp [tokensAux, List.isEmpty_iff, h]
    · exact absurd hc (List.not_mem_nil c)
  | cons c cs ih =>
    intro acc h
    by_cases hc : pyIsSpace c = true
    · by_cases he : acc.isEmpty
      · simp only [tokensAux, hc, if_true, he]
        refine ih [] (Or.inr ?_)
        rcases h with h | ⟨x, hx, hxs⟩
        · exact absurd (List.isEmpty_iff.mp he) h
        · rcases List.mem_cons.mp hx with rfl | hx'
          · rw [hxs] at hc; cases hc
          · exact ⟨x, hx', hxs⟩
      · simp [tokensAux, hc, he]
    · rw [Bool.not_eq_true] at hc
      simp only [tokensAux, hc, if_false]
      exact ih (c :: acc) (Or.inl (by simp))

lemma pyTokens_ne_nil_of_char (u : String) (c : Char) (hc : c ∈ u.data)
    (hs : pyIsSpace c = false) : pyTokens u ≠ [] :=
  tokensAux_ne_nil u.data [] (Or.inr ⟨c, hc, hs⟩)

lemma pyTokens_append_suffix_ne_nil (u : String) : pyTokens (u ++ retrySuffix) ≠ [] := by
  rw [pyTokens_append_retrySuffix]
  intro hcontra
  rw [List.append_eq_nil] at hcontra
  exact (by decide : pyTokens retrySuffix ≠ []) hcontra.2

lemma mem_of_mem_takeWhile {α : Type} (p : α → Bool) :
    ∀ (l : List α) (x : α), x ∈ l.takeWhile p → x ∈ l := by
  intro l
  induction l with
  | nil => intro x hx; simp at hx
  | cons a l ih =>
    intro x hx
    rw [List.takeWhile_cons] at hx
    split at hx
    · rcases List.mem_cons.mp hx with rfl | hx'
      · exact List.mem_cons_self _ _
      · exact List.mem_cons_of_mem _ (ih x hx')
    · exact absurd hx (List.not_mem_nil x)

lemma intercalate_go_data (s : String) : ∀ (as : List String) (acc : String),
    ∃ r, (String.intercalate.go acc s as).data = acc.data ++ r := by
  intro as
  induction as with
  | nil => intro acc; exact ⟨[], by simp [String.intercalate.go]⟩
  | cons a as ih =>
    intro acc
    obtain ⟨r, hr⟩ := ih (acc ++ s ++ a)
    refine ⟨s.data ++ a.data ++ r, ?_⟩
    rw [show String.intercalate.go acc s (a :: as) = String.intercalate.go (acc ++ s ++ a) s as
        from rfl, hr]
    simp [String.data_append]

lemma intercalate_cons_data (s p : String) (ps : List String) :
    ∃ r, (String.intercalate s (p :: ps)).data = p.data ++ r := by
  simpa [String.intercalate] using intercalate_go_data s ps p

lemma clean_company_name_eq (u w : String) (ws : List String) (h : pyTokens u = w :: ws) :
    clean_company_name u =
      some (if ((w :: ws).takeWhile (fun t => !search_terms.contains (pyLower t))).isEmpty then w
            else String.intercalate " "
              ((w :: ws).takeWhile (fun t => !search_terms.contains (pyLower t)))) := by
  simp only [clean_company_name, h]
  split <;> rfl

lemma clean_company_tokens_ne_nil (u w : String) (ws : List String)
    (h : pyTokens u = w :: ws) (c : String) (hc : clean_company_name u = some c) :
    pyTokens c ≠ [] := by
  rw [clean_company_name_eq u w ws h] at hc
  injection hc with hc
  subst hc
  split
  · have hw := pyTokens_mem u w (h ▸ List.mem_cons_self w ws)
    rcases hdata : w.data with _ | ⟨ch, rest⟩
    · exact absurd hdata hw.1
    · exact pyTokens_ne_nil_of_char w ch (by rw [hdata]; exact List.mem_cons_self _ _)
        (hw.2 ch (by rw [hdata]; exact List.mem_cons_self _ _))
  · rename_i hne
    rcases hparts : (w :: ws).takeWhile (fun t => !search_terms.contains (pyLower t)) with _ | ⟨p, ps⟩
    · rw [hparts] at hne; simp at hne
    · have hpmem : p ∈ pyTokens u := by
        rw [h]
        exact mem_of_mem_takeWhile _ _ p (by rw [hparts]; exact List.mem_cons_self _ _)
      have hp := pyTokens_mem u p hpmem
      obtain ⟨r, hr⟩ := intercalate_cons_data " " p ps
      rcases hdata : p.data with _ | ⟨ch, rest⟩
      · exact absurd hdata hp.1
      · refine pyTokens_ne_nil_of_char _ ch ?_ (hp.2 ch (by rw [hdata]; exact List.mem_cons_self _ _))
        rw [hr, hdata]
        simp

/-! ## Field-effect lemmas for the agents and the merge -/

lemma applyUpdate_dca_none (s : ReportState) (u : Update)
    (h : u.data_collection_attempts = none) :
    (applyUpdate s u).data_collection_attempts = s.data_collection_attempts := by
  simp [applyUpdate, h]

lemma applyUpdate_wa_none (s : ReportState) (u : Update) (h : u.writing_attempts = none) :
    (applyUpdate s u).writing_attempts = s.writing_attempts := by
  simp [applyUpdate, h]

lemma applyUpdate_user_none (s : ReportState) (u : Update) (h : u.user_input = none) :
    (applyUpdate s u).user_input = s.user_input := by
  simp [applyUpdate, h]

lemma applyUpdate_km_some (s : ReportState) (u : Update) (m : List (String × String))
    (h : u.key_metrics = some m) : (applyUpdate s u).key_metrics = some m := by
  simp [applyUpdate, h]

lemma data_collector_fields (o : Oracles) (s : ReportState) (u : Update)
    (h : data_collector_agent o s = some u) :
    u.data_collection_attempts = none ∧ u.writing_attempts = none ∧ u.user_input = none := by
  simp only [data_collector_agent] at h
  split at h
  · cases h; exact ⟨rfl, rfl, rfl⟩
  · split at h
    · cases h
    · split at h
      · cases h; exact ⟨rfl, rfl, rfl⟩
      · cases h; exact ⟨rfl, rfl, rfl⟩

lemma data_collector_insights (o : Oracles) (s : ReportState) (u : Update)
    (h : data_collector_agent o s = some u) : u.insights = [] := by
  simp only [data_collector_agent] at h
  split at h
  · cases h; rfl
  · split at h
    · cases h
    · split at h
      · cases h; rfl
      · cases h; rfl

lemma analyst_fields (o : Oracles) (s : ReportState) (u : Update)
    (h : analyst_agent o s = some u) :
    u.data_collection_attempts = none ∧ u.writing_attempts = none ∧ u.user_input = none := by
  simp only [analyst_agent] at h
  split at h
  · cases h; exact ⟨rfl, rfl, rfl⟩
  · split at h
    · cases h; exact ⟨rfl, rfl, rfl⟩
    · cases h
    · split at h
      · cases h
      · split at h
        · cases h
        · cases h; exact ⟨rfl, rfl, rfl⟩

lemma analyst_key_metrics_some (o : Oracles) (s : ReportState) (u : Update)
    (h : analyst_agent o s = some u) : ∃ m, u.key_metrics = some m := by
  simp only [analyst_agent] at h
  split at h
  · cases h; exact ⟨_, rfl⟩
  · split at h
    · cases h; exact ⟨_, rfl⟩
    · cases h
    · split at h
      · cases h
      · split at h
        · cases h
        · cases h; exact ⟨_, rfl⟩

lemma writer_fields (o : Oracles) (s : ReportState) :
    (writer_agent o s).data_collection_attempts = none
    ∧ (writer_agent o s).writing_attempts = none
    ∧ (writer_agent o s).user_input = none := by
  rw [writer_agent]
  split <;> exact ⟨rfl, rfl, rfl⟩

lemma editor_fields (o : Oracles) (s : ReportState) (u : Update)
    (h : editor_agent o s = some u) :
    u.data_collection_attempts = none ∧ u.writing_attempts = none ∧ u.user_input = none := by
  simp only [editor_agent] at h
  split at h
  · cases h
  · cases h; exact ⟨rfl, rfl, rfl⟩

lemma handler_fields (t : String) (s : ReportState) (u : Update)
    (h : handle_insufficient_data t s = some u) :
    u.data_collection_attempts = none ∧ u.writing_attempts = none ∧ u.user_input = none := by
  simp only [handle_insufficient_data] at h
  split at h
  · cases h
  · cases h; exact ⟨rfl, rfl, rfl⟩

/-! ## Gate lemmas -/

lemma gateA_collect_lt (s : ReportState)
    (h : check_analysis_quality s = some AnalysisDecision.collect_more_data) :
    s.data_collection_attempts < 2 := by
  simp only [check_analysis_quality] at h
  split at h
  · cases h
  · split at h
    · cases h
    · split at h
      · cases h
      · injection h with h
        split_ifs at h with h1 h2
        exact h1.2

lemma gateR_revise_lt (s : ReportState)
    (h : check_report_quality s = some ReportDecision.revise_report) :
    s.writing_attempts < 2 := by
  simp only [check_report_quality] at h
  split at h
  · cases h
  · split at h
    · cases h
    · injection h with h
      split_ifs at h with h1 h2
      exact h1.2

/-! ## Totality lemmas: which inputs make each stage raise -/

lemma data_collector_some (o : Oracles) (s : ReportState) (h : pyTokens s.user_input ≠ []) :
    ∃ u, data_collector_agent o s = some u := by
  simp only [data_collector_agent]
  split
  · exact ⟨_, rfl⟩
  · rcases htok : pyTokens s.user_input with _ | ⟨w, ws⟩
    · exact absurd htok h
    · simp only [htok]
      split <;> exact ⟨_, rfl⟩

lemma analyst_some (o : Oracles) (s : ReportState)
    (hp : ∀ t, wellTypedResp (o.parseJson t) = true) :
    ∃ u, analyst_agent o s = some u := by
  simp only [analyst_agent]
  split
  · exact ⟨_, rfl⟩
  · rcases hparse : o.parseJson (stripFences (o.llm_analysis s)) with _ | j
    · simp only [hparse]; exact ⟨_, rfl⟩
    · have hw := hp (stripFences (o.llm_analysis s))
      rw [hparse] at hw
      cases j with
      | nonObj => simp [wellTypedResp] at hw
      | obj r =>
        simp only [wellTypedResp] at hw
        rcases hki : fieldAsList r.key_insights with _ | li
        · simp only [hki] at hw
          simp at hw
        · rcases htr : fieldAsList r.trends with _ | ltr
          · simp only [htr, Option.isSome_none, Bool.and_false] at hw
            cases hw
          · simp only [hparse, hki, htr]
            exact ⟨_, rfl⟩

lemma analyst_insights_hasLen (o : Oracles) (s : ReportState) (u : Update)
    (hp : ∀ t, wellTypedResp (o.parseJson t) = true)
    (h : analyst_agent o s = some u) :
    u.insights.all pyHasLen = true := by
  simp only [analyst_agent] at h
  split at h
  · cases h; rfl
  · rcases hparse : o.parseJson (stripFences (o.llm_analysis s)) with _ | j
    · simp only [hparse] at h; cases h; rfl
    · simp only [hparse] at h
      cases j with
      | nonObj => cases h
      | obj r =>
        have hw := hp (stripFences (o.llm_analysis s))
        rw [hparse] at hw
        simp only [wellTypedResp] at hw
        rcases hki : fieldAsList r.key_insights with _ | li
        · simp only [hki] at h; cases h
        · simp only [hki] at h
          simp only [hki, Bool.and_eq_true] at hw
          rcases htr : fieldAsList r.trends with _ | ltr
          · simp only [htr] at h; cases h
          · simp only [htr] at h
            cases h
            exact hw.1

lemma gateA_some (s : ReportState) (km : List (String × String))
    (hkm : s.key_metrics = some km) (hlen : s.insights.all pyHasLen = true)
    (h : pyTokens s.user_input ≠ []) :
    ∃ d, check_analysis_quality s = some d := by
  rcases htok : pyTokens s.user_input with _ | ⟨w, ws⟩
  · exact absurd htok h
  · simp only [check_analysis_quality, hkm, htok]
    rw [if_neg (by simp [hlen])]
    exact ⟨_, rfl⟩

lemma handler_some (t : String) (s : ReportState) (h : pyTokens s.user_input ≠ []) :
    ∃ u, handle_insufficient_data t s = some u := by
  rcases htok : pyTokens s.user_input with _ | ⟨w, ws⟩
  · exact absurd htok h
  · simp only [handle_insufficient_data, htok]
    exact ⟨_, rfl⟩

lemma editor_some (o : Oracles) (s : ReportState) (h : pyTokens s.user_input ≠ []) :
    ∃ u, editor_agent o s = some u := by
  rcases htok : pyTokens s.user_input with _ | ⟨w, ws⟩
  · exact absurd htok h
  · simp only [editor_agent, clean_company_name_eq s.user_input w ws htok]
    exact ⟨_, rfl⟩

lemma gateR_some (s : ReportState) (h : pyTokens s.user_input ≠ []) :
    ∃ d, check_report_quality s = some d := by
  rcases htok : pyTokens s.user_input with _ | ⟨w, ws⟩
  · exact absurd htok h
  · rcases hcc : clean_company_name s.user_input with _ | c
    · rw [clean_company_name_eq s.user_input w ws htok] at hcc; cases hcc
    · have hctok := clean_company_tokens_ne_nil s.user_input w ws htok c hcc
      rcases hct : pyTokens c with _ | ⟨b, bs⟩
      · exact absurd hct hctok
      · simp only [check_report_quality, hcc, hct]
        exact ⟨_, rfl⟩

/-! ## Trace composition -/

lemma CounterSteps_append : ∀ (t1 : List (Node × ReportState)) (s0 : ReportState)
    (t2 : List (Node × ReportState)),
    CounterSteps s0 t1 → CounterSteps (lastState s0 t1) t2 → CounterSteps s0 (t1 ++ t2) := by
  intro t1
  induction t1 with
  | nil => intro s0 t2 _ h2; exact h2
  | cons p rest ih =>
    intro s0 t2 h1 h2
    rcases p with ⟨n, s⟩
    obtain ⟨ha, hb, hc⟩ := h1
    exact ⟨ha, hb, ih s t2 hc h2⟩

/-! ## Phase invariants for the retry counters -/

lemma writePhase_spec (o : Oracles) : ∀ (fuel : Nat) (s : ReportState),
    s.data_collection_attempts ≤ 2 → s.writing_attempts ≤ 2 →
    CounterSteps s (writePhase o fuel s).1
    ∧ (∀ p ∈ (writePhase o fuel s).1,
        p.2.data_collection_attempts ≤ 2 ∧ p.2.writing_attempts ≤ 2) := by
  intro fuel
  induction fuel with
  | zero =>
    intro s hd hw
    exact ⟨trivial, by intro p hp; simp [writePhase] at hp⟩
  | succ fuel ih =>
    intro s hd hw
    obtain ⟨hwd, hww, hwu⟩ := writer_fields o s
    have h1d : (applyUpdate s (writer_agent o s)).data_collection_attempts
        = s.data_collection_attempts := applyUpdate_dca_none _ _ hwd
    have h1w : (applyUpdate s (writer_agent o s)).writing_attempts
        = s.writing_attempts := applyUpdate_wa_none _ _ hww
    cases hedit : editor_agent o (applyUpdate s (writer_agent o s)) with
    | none =>
      simp only [writePhase, hedit]
      refine ⟨⟨h1d, h1w, trivial⟩, ?_⟩
      intro p hp
      simp only [List.mem_singleton] at hp
      subst hp
      exact ⟨h1d ▸ hd, h1w ▸ hw⟩
    | some ue =>
      obtain ⟨hed, hew, heu⟩ := editor_fields o _ ue hedit
      have h2d : (applyUpdate (applyUpdate s (writer_agent o s)) ue).data_collection_attempts
          = s.data_collection_attempts := by rw [applyUpdate_dca_none _ _ hed, h1d]
      have h2w : (applyUpdate (applyUpdate s (writer_agent o s)) ue).writing_attempts
          = s.writing_attempts := by rw [applyUpdate_wa_none _ _ hew, h1w]
      cases hgate : check_report_quality (applyUpdate (applyUpdate s (writer_agent o s)) ue) with
      | none =>
        simp only [writePhase, hedit, hgate]
        refine ⟨⟨h1d, h1w, h2d.trans h1d.symm, h2w.trans h1w.symm, trivial⟩, ?_⟩
        intro p hp
        simp only [List.mem_cons, List.not_mem_nil, or_false] at hp
        rcases hp with rfl | rfl
        · exact ⟨h1d ▸ hd, h1w ▸ hw⟩
        · exact ⟨h2d ▸ hd, h2w ▸ hw⟩
      | some d =>
        cases d with
        | finalize =>
          simp only [writePhase, hedit, hgate]
          refine ⟨⟨h1d, h1w, h2d.trans h1d.symm, h2w.trans h1w.symm, trivial⟩, ?_⟩
          intro p hp
          simp only [List.mem_cons, List.not_mem_nil, or_false] at hp
          rcases hp with rfl | rfl
          · exact ⟨h1d ▸ hd, h1w ▸ hw⟩
          · exact ⟨h2d ▸ hd, h2w ▸ hw⟩
        | revise_report =>
          have hlt : (applyUpdate (applyUpdate s (writer_agent o s)) ue).writing_attempts < 2 :=
            gateR_revise_lt _ hgate
          have h3d : (applyUpdate (applyUpdate (applyUpdate s (writer_agent o s)) ue)
              (retry_writing (applyUpdate (applyUpdate s (writer_agent o s)) ue))).data_collection_attempts
              = s.data_collection_attempts := h2d
          have h3w : (applyUpdate (applyUpdate (applyUpdate s (writer_agent o s)) ue)
              (retry_writing (applyUpdate (applyUpdate s (writer_agent o s)) ue))).writing_attempts
              = (applyUpdate (applyUpdate s (writer_agent o s)) ue).writing_attempts + 1 := rfl
          obtain ⟨ihc, ihb⟩ := ih _ (by rw [h3d]; exact hd) (by rw [h3w]; omega)
          simp only [writePhase, hedit, hgate]
          refine ⟨⟨h1d, h1w, h2d.trans h1d.symm, h2w.trans h1w.symm, ?_, ?_, ihc⟩, ?_⟩
          · simp [h3d, h2d]
          · simp [h3w]
          · intro p hp
            simp only [List.mem_cons] at hp
            rcases hp with rfl | rfl | rfl | hp
            · exact ⟨h1d ▸ hd, h1w ▸ hw⟩
            · exact ⟨h2d ▸ hd, h2w ▸ hw⟩
            · exact ⟨h3d ▸ hd, by rw [h3w]; omega⟩
            · exact ihb p hp

lemma collectPhase_spec (o : Oracles) : ∀ (fuel : Nat) (s : ReportState),
    s.data_collection_attempts ≤ 2 → s.writing_attempts ≤ 2 →
    CounterSteps s (collectPhase o fuel s).1
    ∧ (∀ p ∈ (collectPhase o fuel s).1,
        p.2.data_collection_attempts ≤ 2 ∧ p.2.writing_attempts ≤ 2)
    ∧ (∀ s', ((collectPhase o fuel s).2 = RunStatus.toWriter s'
          ∨ (collectPhase o fuel s).2 = RunStatus.ok s') →
        lastState s (collectPhase o fuel s).1 = s'
        ∧ s'.data_collection_attempts ≤ 2 ∧ s'.writing_attempts ≤ 2) := by
  intro fuel
  induction fuel with
  | zero =>
    intro s hd hw
    refine ⟨trivial, by intro p hp; simp [collectPhase] at hp, ?_⟩
    intro s' h
    rcases h with h | h <;> simp [collectPhase] at h
  | succ fuel ih =>
    intro s hd hw
    cases hcol : data_collector_agent o s with
    | none =>
      simp only [collectPhase, hcol]
      refine ⟨trivial, by intro p hp; simp at hp, ?_⟩
      intro s' h
      rcases h with h | h <;> cases h
    | some uc =>
      obtain ⟨hcd, hcw, hcu⟩ := data_collector_fields o s uc hcol
      have h1d : (applyUpdate s uc).data_collection_attempts = s.data_collection_attempts :=
        applyUpdate_dca_none _ _ hcd
      have h1w : (applyUpdate s uc).writing_attempts = s.writing_attempts :=
        applyUpdate_wa_none _ _ hcw
      cases hana : analyst_agent o (applyUpdate s uc) with
      | none =>
        simp only [collectPhase, hcol, hana]
        refine ⟨⟨h1d, h1w, trivial⟩, ?_, ?_⟩
        · intro p hp
          simp only [List.mem_singleton] at hp
          subst hp
          exact ⟨h1d ▸ hd, h1w ▸ hw⟩
        · intro s' h
          rcases h with h | h <;> cases h
      | some ua =>
        obtain ⟨had, haw, hau⟩ := analyst_fields o _ ua hana
        have h2d : (applyUpdate (applyUpdate s uc) ua).data_collection_attempts
            = s.data_collection_attempts := by rw [applyUpdate_dca_none _ _ had, h1d]
        have h2w : (applyUpdate (applyUpdate s uc) ua).writing_attempts
            = s.writing_attempts := by rw [applyUpdate_wa_none _ _ haw, h1w]
        cases hgate : check_analysis_quality (applyUpdate (applyUpdate s uc) ua) with
        | none =>
          simp only [collectPhase, hcol, hana, hgate]
          refine ⟨⟨h1d, h1w, h2d.trans h1d.symm, h2w.trans h1w.symm, trivial⟩, ?_, ?_⟩
          · intro p hp
            simp only [List.mem_cons, List.not_mem_nil, or_false] at hp
            rcases hp with rfl | rfl
            · exact ⟨h1d ▸ hd, h1w ▸ hw⟩
            · exact ⟨h2d ▸ hd, h2w ▸ hw⟩
          · intro s' h
            rcases h with h | h <;> cases h
        | some d =>
          cases d with
          | proceed_to_writer =>
            simp only [collectPhase, hcol, hana, hgate]
            refine ⟨⟨h1d, h1w, h2d.trans h1d.symm, h2w.trans h1w.symm, trivial⟩, ?_, ?_⟩
            · intro p hp
              simp only [List.mem_cons, List.not_mem_nil, or_false] at hp
              rcases hp with rfl | rfl
              · exact ⟨h1d ▸ hd, h1w ▸ hw⟩
              · exact ⟨h2d ▸ hd, h2w ▸ hw⟩
            · intro s' h
              rcases h with h | h
              · injection h with h
                subst h
                exact ⟨rfl, h2d ▸ hd, h2w ▸ hw⟩
              · cases h
          | insufficient_data =>
            cases hh : handle_insufficient_data o.today (applyUpdate (applyUpdate s uc) ua) with
            | none =>
              simp only [collectPhase, hcol, hana, hgate, hh]
              refine ⟨⟨h1d, h1w, h2d.trans h1d.symm, h2w.trans h1w.symm, trivial⟩, ?_, ?_⟩
              · intro p hp
                simp only [List.mem_cons, List.not_mem_nil, or_false] at hp
                rcases hp with rfl | rfl
                · exact ⟨h1d ▸ hd, h1w ▸ hw⟩
                · exact ⟨h2d ▸ hd, h2w ▸ hw⟩
              · intro s' h
                rcases h with h | h <;> cases h
            | some uh =>
              obtain ⟨hhd, hhw, hhu⟩ := handler_fields o.today _ uh hh
              have h3d : (applyUpdate (applyUpdate (applyUpdate s uc) ua) uh).data_collection_attempts
                  = s.data_collection_attempts := by rw [applyUpdate_dca_none _ _ hhd, h2d]
              have h3w : (applyUpdate (applyUpdate (applyUpdate s uc) ua) uh).writing_attempts
                  = s.writing_attempts := by rw [applyUpdate_wa_none _ _ hhw, h2w]
              simp only [collectPhase, hcol, hana, hgate, hh]
              refine ⟨⟨h1d, h1w, h2d.trans h1d.symm, h2w.trans h1w.symm,
                h3d.trans h2d.symm, h3w.trans h2w.symm, trivial⟩, ?_, ?_⟩
              · intro p hp
                simp only [List.mem_cons, List.not_mem_nil, or_false] at hp
                rcases hp with rfl | rfl | rfl
                · exact ⟨h1d ▸ hd, h1w ▸ hw⟩
                · exact ⟨h2d ▸ hd, h2w ▸ hw⟩
                · exact ⟨h3d ▸ hd, h3w ▸ hw⟩
              · intro s' h
                rcases h with h | h
                · cases h
                · injection h with h
                  subst h
                  exact ⟨rfl, h3d ▸ hd, h3w ▸ hw⟩
          | collect_more_data =>
            have hlt : (applyUpdate (applyUpdate s uc) ua).data_collection_attempts < 2 :=
              gateA_collect_lt _ hgate
            have h3d : (applyUpdate (applyUpdate (applyUpdate s uc) ua)
                (retry_data_collection (applyUpdate (applyUpdate s uc) ua))).data_collection_attempts
                = (applyUpdate (applyUpdate s uc) ua).data_collection_attempts + 1 := rfl
            have h3w : (applyUpdate (applyUpdate (applyUpdate s uc) ua)
                (retry_data_collection (applyUpdate (applyUpdate s uc) ua))).writing_attempts
                = s.writing_attempts := h2w
            obtain ⟨ihc, ihb, ihl⟩ := ih _ (by rw [h3d]; omega) (by rw [h3w]; exact hw)
            simp only [collectPhase, hcol, hana, hgate]
            refine ⟨⟨h1d, h1w, h2d.trans h1d.symm, h2w.trans h1w.symm, ?_, ?_, ihc⟩, ?_, ?_⟩
            · simp [h3d]
            · simp [h3w, h2w]
            · intro p hp
              simp only [List.mem_cons] at hp
              rcases hp with rfl | rfl | rfl | hp
              · exact ⟨h1d ▸ hd, h1w ▸ hw⟩
              · exact ⟨h2d ▸ hd, h2w ▸ hw⟩
              · exact ⟨by rw [h3d]; omega, h3w ▸ hw⟩
              · exact ihb p hp
            · intro s' h
              exact ihl s' h

/-- C3: during every workflow run from an initial state with zero
counters, each traced node leaves both retry counters unchanged except
that the dedicated retry handler increments its own counter by exactly 1
(so both counters are monotonically non-decreasing), and both counters
stay bounded by the retry ceiling 2 throughout the run. -/
theorem c3_retry_counters (o : Oracles) (s0 : ReportState)
    (h1 : s0.data_collection_attempts = 0) (h2 : s0.writing_attempts = 0) :
    CounterSteps s0 (run o s0).1
    ∧ ∀ p ∈ (run o s0).1,
        p.2.data_collection_attempts ≤ 2 ∧ p.2.writing_attempts ≤ 2 := by
  obtain ⟨hc1, hc2, hc3⟩ := collectPhase_spec o 3 s0 (by omega) (by omega)
  cases hst : (collectPhase o 3 s0).2 with
  | toWriter s' =>
    obtain ⟨hl, hb1, hb2⟩ := hc3 s' (Or.inl hst)
    obtain ⟨hw1, hw2⟩ := writePhase_spec o 3 s' hb1 hb2
    simp only [run, hst]
    constructor
    · refine CounterSteps_append _ _ _ hc1 ?_
      rw [hl]
      exact hw1
    · intro p hp
      rcases List.mem_append.mp hp with hp | hp
      · exact hc2 p hp
      · exact hw2 p hp
  | ok s' => simp only [run, hst]; exact ⟨hc1, hc2⟩
  | exn => simp only [run, hst]; exact ⟨hc1, hc2⟩
  | fuelOut => simp only [run, hst]; exact ⟨hc1, hc2⟩

/-- C3 witness: the counter-step property evaluated on a concrete run. -/
theorem c3_witness :
    CounterSteps { user_input := "Tesla" } (run oraclesEmpty { user_input := "Tesla" }).1
    ∧ ∀ p ∈ (run oraclesEmpty { user_input := "Tesla" }).1,
        p.2.data_collection_attempts ≤ 2 ∧ p.2.writing_attempts ≤ 2 :=
  c3_retry_counters oraclesEmpty { user_input := "Tesla" } rfl rfl

/-! ## Totality of the phases under the stated hypotheses -/

lemma collectPhase_total (o : Oracles)
    (hp : ∀ t, wellTypedResp (o.parseJson t) = true) :
    ∀ (fuel : Nat) (s : ReportState), pyTokens s.user_input ≠ [] →
    s.insights.all pyHasLen = true →
    3 - min s.data_collection_attempts 2 ≤ fuel →
    (∃ s', (collectPhase o fuel s).2 = RunStatus.toWriter s' ∧ pyTokens s'.user_input ≠ [])
    ∨ (∃ s', (collectPhase o fuel s).2 = RunStatus.ok s') := by
  intro fuel
  induction fuel with
  | zero =>
    intro s htok hins hfuel
    omega
  | succ fuel ih =>
    intro s htok hins hfuel
    obtain ⟨uc, hcol⟩ := data_collector_some o s htok
    obtain ⟨hcd, hcw, hcu⟩ := data_collector_fields o s uc hcol
    have hcin : uc.insights = [] := data_collector_insights o s uc hcol
    have h1u : (applyUpdate s uc).user_input = s.user_input := applyUpdate_user_none _ _ hcu
    obtain ⟨ua, hana⟩ := analyst_some o (applyUpdate s uc) hp
    obtain ⟨had, haw, hau⟩ := analyst_fields o _ ua hana
    obtain ⟨m2, hm2⟩ := analyst_key_metrics_some o _ ua hana
    have hain := analyst_insights_hasLen o _ ua hp hana
    have h2u : (applyUpdate (applyUpdate s uc) ua).user_input = s.user_input := by
      rw [applyUpdate_user_none _ _ hau, h1u]
    have h2tok : pyTokens (applyUpdate (applyUpdate s uc) ua).user_input ≠ [] := by
      rw [h2u]; exact htok
    have h2km : (applyUpdate (applyUpdate s uc) ua).key_metrics = some m2 :=
      applyUpdate_km_some _ _ _ hm2
    have h2ins : (applyUpdate (applyUpdate s uc) ua).insights.all pyHasLen = true := by
      have he : (applyUpdate (applyUpdate s uc) ua).insights
          = (s.insights ++ uc.insights) ++ ua.insights := rfl
      rw [he, hcin]
      simp [List.all_append, hins, hain]
    obtain ⟨d, hgate⟩ := gateA_some _ m2 h2km h2ins h2tok
    cases d with
    | proceed_to_writer =>
      left
      refine ⟨applyUpdate (applyUpdate s uc) ua, ?_, h2tok⟩
      simp only [collectPhase, hcol, hana, hgate]
    | insufficient_data =>
      right
      obtain ⟨uh, hh⟩ := handler_some o.today _ h2tok
      refine ⟨applyUpdate (applyUpdate (applyUpdate s uc) ua) uh, ?_⟩
      simp only [collectPhase, hcol, hana, hgate, hh]
    | collect_more_data =>
      have hlt : (applyUpdate (applyUpdate s uc) ua).data_collection_attempts < 2 :=
        gateA_collect_lt _ hgate
      have h2d : (applyUpdate (applyUpdate s uc) ua).data_collection_attempts
          = s.data_collection_attempts := by
        rw [applyUpdate_dca_none _ _ had, applyUpdate_dca_none _ _ hcd]
      have h3u : (applyUpdate (applyUpdate (applyUpdate s uc) ua)
          (retry_data_collection (applyUpdate (applyUpdate s uc) ua))).user_input
          = (applyUpdate (applyUpdate s uc) ua).user_input ++ retrySuffix := rfl
      have h3d : (applyUpdate (applyUpdate (applyUpdate s uc) ua)
          (retry_data_collection (applyUpdate (applyUpdate s uc) ua))).data_collection_attempts
          = (applyUpdate (applyUpdate s uc) ua).data_collection_attempts + 1 := rfl
      have h3tok : pyTokens (applyUpdate (applyUpdate (applyUpdate s uc) ua)
          (retry_data_collection (applyUpdate (applyUpdate s uc) ua))).user_input ≠ [] := by
        rw [h3u]
        exact pyTokens_append_suffix_ne_nil _
      have hfuel3 : 3 - min (applyUpdate (applyUpdate (applyUpdate s uc) ua)
          (retry_data_collection (applyUpdate (applyUpdate s uc) ua))).data_collection_attempts 2
          ≤ fuel := by
        rw [h3d, h2d]
        rw [h2d] at hlt
        omega
      have h3ins : (applyUpdate (applyUpdate (applyUpdate s uc) ua)
          (retry_data_collection (applyUpdate (applyUpdate s uc) ua))).insights.all pyHasLen
          = true := by
        have he : (applyUpdate (applyUpdate (applyUpdate s uc) ua)
            (retry_data_collection (applyUpdate (applyUpdate s uc) ua))).insights
            = (applyUpdate (applyUpdate s uc) ua).insights ++ [] := rfl
        rw [he, List.append_nil]
        exact h2ins
      rcases ih _ h3tok h3ins hfuel3 with ⟨s', hs', htoks'⟩ | ⟨s', hs'⟩
      · left
        refine ⟨s', ?_, htoks'⟩
        simp only [collectPhase, hcol, hana, hgate]
        exact hs'
      · right
        refine ⟨s', ?_⟩
        simp only [collectPhase, hcol, hana, hgate]
        exact hs'

lemma writePhase_total (o : Oracles) :
    ∀ (fuel : Nat) (s : ReportState), pyTokens s.user_input ≠ [] →
    3 - min s.writing_attempts 2 ≤ fuel →
    ∃ s', (writePhase o fuel s).2 = RunStatus.ok s' := by
  intro fuel
  induction fuel with
  | zero =>
    intro s htok hfuel
    omega
  | succ fuel ih =>
    intro s htok hfuel
    obtain ⟨hwd, hww, hwu⟩ := writer_fields o s
    have h1u : (applyUpdate s (writer_agent o s)).user_input = s.user_input :=
      applyUpdate_user_none _ _ hwu
    have h1tok : pyTokens (applyUpdate s (writer_agent o s)).user_input ≠ [] := by
      rw [h1u]; exact htok
    obtain ⟨ue, hedit⟩ := editor_some o _ h1tok
    obtain ⟨hed, hew, heu⟩ := editor_fields o _ ue hedit
    have h2u : (applyUpdate (applyUpdate s (writer_agent o s)) ue).user_input
        = s.user_input := by
      rw [applyUpdate_user_none _ _ heu, h1u]
    have h2tok : pyTokens (applyUpdate (applyUpdate s (writer_agent o s)) ue).user_input ≠ [] := by
      rw [h2u]; exact htok
    obtain ⟨d, hgate⟩ := gateR_some _ h2tok
    cases d with
    | finalize =>
      refine ⟨applyUpdate (applyUpdate s (writer_agent o s)) ue, ?_⟩
      simp only [writePhase, hedit, hgate]
    | revise_report =>
      have hlt : (applyUpdate (applyUpdate s (writer_agent o s)) ue).writing_attempts < 2 :=
        gateR_revise_lt _ hgate
      have h2w : (applyUpdate (applyUpdate s (writer_agent o s)) ue).writing_attempts
          = s.writing_attempts := by
        rw [applyUpdate_wa_none _ _ hew, applyUpdate_wa_none _ _ hww]
      have h3u : (applyUpdate (applyUpdate (applyUpdate s (writer_agent o s)) ue)
          (retry_writing (applyUpdate (applyUpdate s (writer_agent o s)) ue))).user_input
          = s.user_input := h2u
      have h3w : (applyUpdate (applyUpdate (applyUpdate s (writer_agent o s)) ue)
          (retry_writing (applyUpdate (applyUpdate s (writer_agent o s)) ue))).writing_attempts
          = (applyUpdate (applyUpdate s (writer_agent o s)) ue).writing_attempts + 1 := rfl
      have h3tok : pyTokens (applyUpdate (applyUpdate (applyUpdate s (writer_agent o s)) ue)
          (retry_writing (applyUpdate (applyUpdate s (writer_agent o s)) ue))).user_input ≠ [] := by
        rw [h3u]; exact htok
      have hfuel3 : 3 - min (applyUpdate (applyUpdate (applyUpdate s (writer_agent o s)) ue)
          (retry_writing (applyUpdate (applyUpdate s (writer_agent o s)) ue))).writing_attempts 2
          ≤ fuel := by
        rw [h3w, h2w]
        rw [h2w] at hlt
        omega
      obtain ⟨s', hs'⟩ := ih _ h3tok hfuel3
      refine ⟨s', ?_⟩
      simp only [writePhase, hedit, hgate]
      exact hs'

/-- C4 (amended): for every oracle assignment in which each Analyst LLM
response is well typed — it fails to parse, or decodes to a JSON object
whose `key_insights` and `trends` fields are lists (or absent) and whose
insights all support `len()` — and every initial state whose `user_input`
contains at least one whitespace token and whose accumulated insights all
support `len()` (the entry points start with the empty list), the workflow
core terminates with some final `ReportState`: no stage raises an uncaught
exception and the bounded retry loops cannot run forever. -/
theorem c4_no_uncaught (o : Oracles) (s0 : ReportState)
    (htok : pyTokens s0.user_input ≠ [])
    (hins : s0.insights.all pyHasLen = true)
    (hp : ∀ t, wellTypedResp (o.parseJson t) = true) :
    ∃ s, (run o s0).2 = RunStatus.ok s := by
  rcases collectPhase_total o hp 3 s0 htok hins (by omega) with ⟨s', hs', htoks'⟩ | ⟨s', hs'⟩
  · obtain ⟨s'', hs''⟩ := writePhase_total o 3 s' htoks' (by omega)
    refine ⟨s'', ?_⟩
    simp only [run, hs', hs'']
  · refine ⟨s', ?_⟩
    simp only [run, hs']

/-- C4 counterexample: four concrete runs that raise a non-LLM exception
reaching the caller.  With empty `user_input` the analysis gate's
`split()[0]` raises `IndexError`; an analyst response decoding to a JSON
non-object (the text `[]`) makes the analyst's `.get` calls raise
`AttributeError`; one decoding to an object with a non-list `key_insights`
raises `TypeError` in the `operator.add` merge; and one decoding to
`key_insights` = a list holding a number raises `TypeError` at the gate's
`len(insight)`. -/
theorem c4_counterexample :
    (run oraclesEmpty { user_input := "" }).2 = RunStatus.exn
    ∧ (run oraclesNonObj { user_input := "Tesla" }).2 = RunStatus.exn
    ∧ (run oraclesNonList { user_input := "Tesla" }).2 = RunStatus.exn
    ∧ (run oraclesIllTyped { user_input := "Tesla" }).2 = RunStatus.exn := by
  refine ⟨?_, ?_, ?_, ?_⟩ <;> decide

/-- C4 witness: a concrete terminating run under the amended hypotheses. -/
theorem c4_witness :
    ∃ s, (run oraclesEmpty { user_input := "Tesla" }).2 = RunStatus.ok s :=
  c4_no_uncaught oraclesEmpty { user_input := "Tesla" } (by decide) rfl (fun t => rfl)

/-! ## Substring lemmas and the insufficient-data terminal path -/

lemma matchHere_append_self : ∀ (p b : List Char), matchHere p (p ++ b) = true := by
  intro p
  induction p with
  | nil => intro b; rfl
  | cons c cs ih => intro b; simp [matchHere, ih]

lemma hasSubAux_of_matchHere : ∀ (p t : List Char), matchHere p t = true → hasSubAux p t = true := by
  intro p t h
  cases t with
  | nil => simpa [hasSubAux] using h
  | cons c ts => simp [hasSubAux, h]

lemma hasSubAux_append_mid (p b : List Char) : ∀ a, hasSubAux p (a ++ (p ++ b)) = true := by
  intro a
  induction a with
  | nil => exact hasSubAux_of_matchHere _ _ (matchHere_append_self p b)
  | cons c a' ih =>
    show hasSubAux p (c :: (a' ++ (p ++ b))) = true
    cases hm : matchHere p (c :: (a' ++ (p ++ b))) with
    | true => simp [hasSubAux, hm]
    | false => simp [hasSubAux, hm, ih]

lemma pyContains_append_mid (x y phrase : String) :
    pyContains (x ++ (phrase ++ y)) phrase = true := by
  rw [pyContains, String.data_append, String.data_append]
  exact hasSubAux_append_mid _ _ _

lemma disclaimer_contains (first a t : String) :
    pyContains (disclaimerReport first a t) "Insufficient Data Available" = true := by
  rw [disclaimerReport]
  exact pyContains_append_mid _ _ _

lemma getD_mem_or {α : Type} : ∀ (l : List α) (i : Nat) (d : α),
    l.getD i d = d ∨ l.getD i d ∈ l := by
  intro l
  induction l with
  | nil => intro i d; left; cases i <;> rfl
  | cons a t ih =>
    intro i d
    cases i with
    | zero => right; exact List.mem_cons_self _ _
    | succ j =>
      rcases ih j d with h | h
      · left; exact h
      · right; exact List.mem_cons_of_mem _ h

lemma collectPhase_handler (o : Oracles) : ∀ (fuel : Nat) (s : ReportState)
    (p : Node × ReportState), p ∈ (collectPhase o fuel s).1 →
    (p.1 = Node.collector ∨ p.1 = Node.analyst ∨ p.1 = Node.retryCollect
      ∨ p.1 = Node.insufficientHandler)
    ∧ (p.1 = Node.insufficientHandler →
        pyContains p.2.final_report "Insufficient Data Available" = true
        ∧ p.2.current_step = "early_exit"
        ∧ (collectPhase o fuel s).2 = RunStatus.ok p.2) := by
  intro fuel
  induction fuel with
  | zero => intro s p hp; simp [collectPhase] at hp
  | succ fuel ih =>
    intro s p hp
    cases hcol : data_collector_agent o s with
    | none => simp only [collectPhase, hcol] at hp; simp at hp
    | some uc =>
      cases hana : analyst_agent o (applyUpdate s uc) with
      | none =>
        simp only [collectPhase, hcol, hana, List.mem_singleton] at hp
        subst hp
        exact ⟨Or.inl rfl, by intro h; cases h⟩
      | some ua =>
        cases hgate : check_analysis_quality (applyUpdate (applyUpdate s uc) ua) with
        | none =>
          simp only [collectPhase, hcol, hana, hgate, List.mem_cons,
            List.not_mem_nil, or_false] at hp
          rcases hp with rfl | rfl
          · exact ⟨Or.inl rfl, by intro h; cases h⟩
          · exact ⟨Or.inr (Or.inl rfl), by intro h; cases h⟩
        | some d =>
          cases d with
          | proceed_to_writer =>
            simp only [collectPhase, hcol, hana, hgate, List.mem_cons,
              List.not_mem_nil, or_false] at hp
            rcases hp with rfl | rfl
            · exact ⟨Or.inl rfl, by intro h; cases h⟩
            · exact ⟨Or.inr (Or.inl rfl), by intro h; cases h⟩
          | insufficient_data =>
            cases hh : handle_insufficient_data o.today (applyUpdate (applyUpdate s uc) ua) with
            | none =>
              simp only [collectPhase, hcol, hana, hgate, hh, List.mem_cons,
                List.not_mem_nil, or_false] at hp
              rcases hp with rfl | rfl
              · exact ⟨Or.inl rfl, by intro h; cases h⟩
              · exact ⟨Or.inr (Or.inl rfl), by intro h; cases h⟩
            | some uh =>
              have hform : ∃ first,
                  uh.final_report = some (disclaimerReport first
                    (toString (applyUpdate (applyUpdate s uc) ua).data_collection_attempts) o.today)
                  ∧ uh.current_step = some "early_exit" := by
                simp only [handle_insufficient_data] at hh
                split at hh
                · cases hh
                · cases hh; exact ⟨_, rfl, rfl⟩
              obtain ⟨first, hfr, hcs⟩ := hform
              simp only [collectPhase, hcol, hana, hgate, hh, List.mem_cons,
                List.not_mem_nil, or_false] at hp
              rcases hp with rfl | rfl | rfl
              · exact ⟨Or.inl rfl, by intro h; cases h⟩
              · exact ⟨Or.inr (Or.inl rfl), by intro h; cases h⟩
              · refine ⟨Or.inr (Or.inr (Or.inr rfl)), fun _ => ⟨?_, ?_, ?_⟩⟩
                · have hfr3 : (applyUpdate (applyUpdate (applyUpdate s uc) ua) uh).final_report
                      = disclaimerReport first
                        (toString (applyUpdate (applyUpdate s uc) ua).data_collection_attempts)
                        o.today := by
                    simp [applyUpdate, hfr]
                  rw [hfr3]
                  exact disclaimer_contains _ _ _
                · simp [applyUpdate, hcs]
                · simp only [collectPhase, hcol, hana, hgate, hh]
          | collect_more_data =>
            simp only [collectPhase, hcol, hana, hgate, List.mem_cons] at hp
            rcases hp with rfl | rfl | rfl | hp
            · exact ⟨Or.inl rfl, by intro h; cases h⟩
            · exact ⟨Or.inr (Or.inl rfl), by intro h; cases h⟩
            · exact ⟨Or.inr (Or.inr (Or.inl rfl)), by intro h; cases h⟩
            · obtain ⟨hn, hc⟩ := ih _ p hp
              refine ⟨hn, fun h => ?_⟩
              obtain ⟨hfr, hcs, hok⟩ := hc h
              refine ⟨hfr, hcs, ?_⟩
              simp only [collectPhase, hcol, hana, hgate]
              exact hok

lemma writePhase_nodes (o : Oracles) : ∀ (fuel : Nat) (s : ReportState)
    (p : Node × ReportState), p ∈ (writePhase o fuel s).1 →
    p.1 = Node.writer ∨ p.1 = Node.editor ∨ p.1 = Node.retryWrite := by
  intro fuel
  induction fuel with
  | zero => intro s p hp; simp [writePhase] at hp
  | succ fuel ih =>
    intro s p hp
    cases hedit : editor_agent o (applyUpdate s (writer_agent o s)) with
    | none =>
      simp only [writePhase, hedit, List.mem_singleton] at hp
      subst hp
      exact Or.inl rfl
    | some ue =>
      cases hgate : check_report_quality (applyUpdate (applyUpdate s (writer_agent o s)) ue) with
      | none =>
        simp only [writePhase, hedit, hgate, List.mem_cons, List.not_mem_nil, or_false] at hp
        rcases hp with rfl | rfl
        · exact Or.inl rfl
        · exact Or.inr (Or.inl rfl)
      | some d =>
        cases d with
        | finalize =>
          simp only [writePhase, hedit, hgate, List.mem_cons, List.not_mem_nil, or_false] at hp
          rcases hp with rfl | rfl
          · exact Or.inl rfl
          · exact Or.inr (Or.inl rfl)
        | revise_report =>
          simp only [writePhase, hedit, hgate, List.mem_cons] at hp
          rcases hp with rfl | rfl | rfl | hp
          · exact Or.inl rfl
          · exact Or.inr (Or.inl rfl)
          · exact Or.inr (Or.inr rfl)
          · exact ih _ p hp

/-- C7: whenever the workflow routes to the insufficient-data handler (a
node of the run trace carries its tag), the handler's state — produced by
the fixed template, without consulting any LLM oracle — has a
`final_report` containing the literal phrase "Insufficient Data Available"
and `current_step` set to the early-exit tag, the run terminates with that
state as its final result, and no Writer or Editor node occurs anywhere in
the run. -/
theorem c7_insufficient_terminal (o : Oracles) (s0 : ReportState) (i : Nat)
    (hn : ((run o s0).1.getD i (Node.collector, s0)).1 = Node.insufficientHandler) :
    pyContains ((run o s0).1.getD i (Node.collector, s0)).2.final_report
        "Insufficient Data Available" = true
    ∧ ((run o s0).1.getD i (Node.collector, s0)).2.current_step = "early_exit"
    ∧ (run o s0).2 = RunStatus.ok ((run o s0).1.getD i (Node.collector, s0)).2
    ∧ ∀ p ∈ (run o s0).1, p.1 ≠ Node.writer ∧ p.1 ≠ Node.editor := by
  set p := (run o s0).1.getD i (Node.collector, s0) with hpdef
  have hmem : p ∈ (run o s0).1 := by
    rcases getD_mem_or (run o s0).1 i (Node.collector, s0) with h | h
    · rw [hpdef, h] at hn; cases hn
    · rw [hpdef]; exact h
  cases hst : (collectPhase o 3 s0).2 with
  | toWriter s' =>
    exfalso
    have hrun : (run o s0).1 = (collectPhase o 3 s0).1 ++ (writePhase o 3 s').1 := by
      simp only [run, hst]
    rw [hrun] at hmem
    rcases List.mem_append.mp hmem with hm | hm
    · have hok := ((collectPhase_handler o 3 s0 p hm).2 hn).2.2
      rw [hst] at hok
      cases hok
    · rcases writePhase_nodes o 3 s' p hm with h | h | h <;> rw [hn] at h <;> cases h
  | ok s'' =>
    have hrun1 : (run o s0).1 = (collectPhase o 3 s0).1 := by simp only [run, hst]
    have hrun2 : (run o s0).2 = (collectPhase o 3 s0).2 := by simp only [run, hst]
    rw [hrun1] at hmem
    obtain ⟨hfr, hcs, hok⟩ := (collectPhase_handler o 3 s0 p hmem).2 hn
    refine ⟨hfr, hcs, by rw [hrun2]; exact hok, ?_⟩
    intro q hq
    rw [hrun1] at hq
    rcases (collectPhase_handler o 3 s0 q hq).1 with h | h | h | h <;>
      exact ⟨by simp [h], by simp [h]⟩
  | exn =>
    exfalso
    have hrun1 : (run o s0).1 = (collectPhase o 3 s0).1 := by simp only [run, hst]
    rw [hrun1] at hmem
    have hok := ((collectPhase_handler o 3 s0 p hmem).2 hn).2.2
    rw [hst] at hok
    cases hok
  | fuelOut =>
    exfalso
    have hrun1 : (run o s0).1 = (collectPhase o 3 s0).1 := by simp only [run, hst]
    rw [hrun1] at hmem
    have hok := ((collectPhase_handler o 3 s0 p hmem).2 hn).2.2
    rw [hst] at hok
    cases hok

/-- C7 witness: the concrete degenerate run reaches the insufficient-data
handler at trace position 8, and the theorem's conclusions hold there. -/
theorem c7_witness :
    pyContains ((run oraclesEmpty { user_input := "Tesla" }).1.getD 8
        (Node.collector, { user_input := "Tesla" })).2.final_report
      "Insufficient Data Available" = true
    ∧ ((run oraclesEmpty { user_input := "Tesla" }).1.getD 8
        (Node.collector, { user_input := "Tesla" })).2.current_step = "early_exit" :=
  ⟨(c7_insufficient_terminal oraclesEmpty { user_input := "Tesla" } 8 (by decide)).1,
   (c7_insufficient_terminal oraclesEmpty { user_input := "Tesla" } 8 (by decide)).2.1⟩

/-- C9 (amended): for every `user_input` with at least one whitespace
token, the clean company name is the space-join of the leading tokens up to
the first noise word; when that leading segment is empty (i.e. the very
first token is a noise word) it falls back to the first token; when no
token is a noise word the result is the join of all tokens. -/
theorem c9_company_name (u w : String) (ws : List String)
    (h : pyTokens u = w :: ws) :
    clean_company_name u =
      some (if ((w :: ws).takeWhile (fun t => !search_terms.contains (pyLower t))).isEmpty then w
            else String.intercalate " "
              ((w :: ws).takeWhile (fun t => !search_terms.contains (pyLower t)))) := by
  simp only [clean_company_name, h]
  split <;> rfl

/-- C9 counterexample: on `"Acme Corp"` no token matches a noise word, yet
the clean name is the join of all tokens, not the claimed fallback to the
first token `"Acme"`. -/
theorem c9_counterexample :
    (pyTokens "Acme Corp").all (fun t => !search_terms.contains (pyLower t)) = true
    ∧ clean_company_name "Acme Corp" = some "Acme Corp"
    ∧ clean_company_name "Acme Corp" ≠ some ((pyTokens "Acme Corp").headD "") := by
  decide

/-- C9 witness: the amended extraction evaluated on a concrete input with a
noise word. -/
theorem c9_witness :
    clean_company_name "Apple Inc financial report" =
      some (if ((["Apple", "Inc", "financial", "report"].takeWhile
                  (fun t => !search_terms.contains (pyLower t))).isEmpty) then "Apple"
            else String.intercalate " "
              (["Apple", "Inc", "financial", "report"].takeWhile
                  (fun t => !search_terms.contains (pyLower t)))) :=
  c9_company_name "Apple Inc financial report" "Apple" ["Inc", "financial", "report"] (by decide)

/-- C10 (amended): `retry_data_collection` rewrites `user_input` to the old
value followed by the fixed suffix and increments the counter; for every
`user_input` with at least one whitespace token, the suffix accumulates
once per retry and the first whitespace token — the company token used by
the collector's relevance heuristic and by gate check 7 — is invariant
across every number of collection retries. -/
theorem c10_retry_input (s : ReportState) (h : pyTokens s.user_input ≠ []) :
    (retry_data_collection s).user_input = some (s.user_input ++ retrySuffix)
    ∧ (retry_data_collection s).data_collection_attempts = some (s.data_collection_attempts + 1)
    ∧ (∀ n : Nat, appendSuffixIter (n + 1) s.user_input
        = appendSuffixIter n s.user_input ++ retrySuffix)
    ∧ (∀ n : Nat, (pyTokens (appendSuffixIter n s.user_input)).head?
        = (pyTokens s.user_input).head?) := by
  refine ⟨rfl, rfl, fun n => rfl, fun n => ?_⟩
  induction n with
  | zero => rfl
  | succ n ih =>
    rcases hn : pyTokens (appendSuffixIter n s.user_input) with _ | ⟨a, l⟩
    · rw [hn] at ih
      rcases hu : pyTokens s.user_input with _ | ⟨w, ws⟩
      · exact absurd hu h
      · rw [hu] at ih; exact absurd ih.symm (by simp)
    · rw [show appendSuffixIter (n + 1) s.user_input
          = appendSuffixIter n s.user_input ++ retrySuffix from rfl,
        pyTokens_append_retrySuffix, hn]
      rw [hn] at ih
      simpa using ih

/-- C10 counterexample: the claim's hypothesis is only that `user_input` is
non-empty, but on the non-empty whitespace-only input `"  "` there is no
first token before the retry while after one retry the first token is
`"financial"` — the first token is not invariant. -/
theorem c10_counterexample :
    ("  " : String) ≠ ""
    ∧ (pyTokens "  ").head? = none
    ∧ (retry_data_collection { user_input := "  " }).user_input = some ("  " ++ retrySuffix)
    ∧ (pyTokens ("  " ++ retrySuffix)).head? = some "financial" := by
  decide

/-- C10 witness: the amended theorem applied at a concrete state. -/
theorem c10_witness :
    (retry_data_collection { user_input := "Tesla" }).user_input = some ("Tesla" ++ retrySuffix)
    ∧ (pyTokens (appendSuffixIter 2 "Tesla")).head? = (pyTokens "Tesla").head? :=
  ⟨(c10_retry_input { user_input := "Tesla" } (by decide)).1,
   (c10_retry_input { user_input := "Tesla" } (by decide)).2.2.2 2⟩

/-- C6: whenever the fence-stripped, trimmed LLM response fails structured
parsing, the analyst does not raise: it returns empty metrics, the single
error insight, empty trends and an error message. -/
theorem c6_parse_failure (o : Oracles) (s : ReportState)
    (hdata : s.raw_data ≠ [])
    (hparse : o.parseJson (stripFences (o.llm_analysis s)) = none) :
    analyst_agent o s =
      some { key_metrics := some [],
             insights := [PyStr.str "Error: Could not parse analysis results"],
             trends := [], current_step := some "analysis",
             messages := ["Error: Failed to analyze data properly"] } := by
  simp [analyst_agent, List.isEmpty_iff, hdata, hparse]

/-- C6 witness: a parse failure on a concrete state and oracle set. -/
theorem c6_witness :
    analyst_agent oraclesEmpty { user_input := "T", raw_data := ["some data"] } =
      some { key_metrics := some [],
             insights := [PyStr.str "Error: Could not parse analysis results"],
             trends := [], current_step := some "analysis",
             messages := ["Error: Failed to analyze data properly"] } :=
  c6_parse_failure oraclesEmpty { user_input := "T", raw_data := ["some data"] }
    (by decide) rfl

/-- C8: when the query-generation response contains zero non-empty lines,
the data collector returns empty `raw_data` and `data_sources` with the
error message, and its result does not depend on the search capability at
all. -/
theorem c8_no_queries (o : Oracles) (s : ReportState)
    (h : ((pySplitOn (o.llm_queries s) "\n").map pyStrip).filter (fun q => q ≠ "") = []) :
    data_collector_agent o s =
      some { raw_data := [], data_sources := [], current_step := some "data_collection",
             messages := ["Error: Could not generate search queries."] }
    ∧ ∀ srch : String → List SearchResult,
        data_collector_agent { o with search := srch } s = data_collector_agent o s := by
  have hcond : (((pySplitOn (o.llm_queries s) "\n").map pyStrip).filter
      (fun q => q ≠ "")).isEmpty = true := by
    rw [h]; rfl
  constructor
  · simp only [data_collector_agent]
    rw [hcond]
    rfl
  · intro srch
    simp only [data_collector_agent]
    rw [show ({ o with search := srch } : Oracles).llm_queries = o.llm_queries from rfl]
    rw [hcond]
    rfl

/-- C8 witness: the empty LLM response strips to zero non-empty lines. -/
theorem c8_witness :
    data_collector_agent oraclesEmpty { user_input := "Tesla" } =
      some { raw_data := [], data_sources := [], current_step := some "data_collection",
             messages := ["Error: Could not generate search queries."] }
    ∧ ∀ srch : String → List SearchResult,
        data_collector_agent { oraclesEmpty with search := srch } { user_input := "Tesla" }
          = data_collector_agent oraclesEmpty { user_input := "Tesla" } :=
  c8_no_queries oraclesEmpty { user_input := "Tesla" } (by decide)

/-- C5 (amended): merging an analyst result into the state overwrites
`key_metrics` with exactly that run's metrics, but — per the
`operator.add` annotations of `src/graph/state.py` — appends that run's
`insights` and `trends` to the previously accumulated values rather than
replacing them. -/
theorem c5_analyst_merge (o : Oracles) (s : ReportState) (u : Update)
    (h : analyst_agent o s = some u) :
    (∃ m, u.key_metrics = some m ∧ (applyUpdate s u).key_metrics = some m)
    ∧ (applyUpdate s u).insights = s.insights ++ u.insights
    ∧ (applyUpdate s u).trends = s.trends ++ u.trends := by
  obtain ⟨m, hm⟩ := analyst_key_metrics_some o s u h
  exact ⟨⟨m, hm, by simp [applyUpdate, hm]⟩, rfl, rfl⟩

/-- C5 counterexample: with degenerate oracles the analyst runs twice in
one workflow execution (once per collection attempt); after the second
analyst node the accumulated `insights` holds the short-circuit insight
twice, not only the most recent run's single insight. -/
theorem c5_counterexample :
    ((run oraclesEmpty { user_input := "Tesla" }).1.getD 4
        (Node.collector, { user_input := "x" })).1 = Node.analyst
    ∧ ((run oraclesEmpty { user_input := "Tesla" }).1.getD 4
        (Node.collector, { user_input := "x" })).2.insights
      = [PyStr.str "No data available for analysis",
         PyStr.str "No data available for analysis"] := by
  decide

/-- C5 witness: the amended merge behaviour on a concrete state carrying an
earlier insight. -/
theorem c5_witness :
    ∃ u, analyst_agent oraclesEmpty
          { user_input := "T", raw_data := ["d"], insights := [PyStr.str "old"] }
          = some u
      ∧ (∃ m, u.key_metrics = some m
          ∧ (applyUpdate { user_input := "T", raw_data := ["d"],
                           insights := [PyStr.str "old"] } u).key_metrics
            = some m)
      ∧ (applyUpdate { user_input := "T", raw_data := ["d"],
                       insights := [PyStr.str "old"] } u).insights
          = [PyStr.str "old"] ++ u.insights :=
  ⟨{ key_metrics := some [], insights := [PyStr.str "Error: Could not parse analysis results"],
     trends := [], current_step := some "analysis",
     messages := ["Error: Failed to analyze data properly"] },
   by decide,
   (c5_analyst_merge oraclesEmpty _ _ (by decide)).1,
   (c5_analyst_merge oraclesEmpty _ _ (by decide)).2.1⟩

end FinReport
